import Mathlib

/-!
# Verification of loom's kind-reassignment kernel and protobuf stream framing

This development shallowly embeds the two source files of the repository:

* `src/src/kind_kernel.cc` — the `KindKernel` component: an indexed partition
  store of "kinds" (each owning a set of feature ids), a `featureid_to_kindid`
  map, a row-assignment table mirrored by kind index, and the transition
  algorithm `try_run` together with its helpers `move_feature_to_kind`,
  `remove_featureless_kind`, `add_featureless_kind`, `init_featureless_kinds`.
* `src/src/protobuf_stream.hpp` — length-prefixed record streams:
  `write_stream`, `try_read_stream`, `protobuf_stream_dump`,
  `protobuf_stream_load`, and `InFile::set_position`.

External collaborators that the kernel calls but whose code lives outside the
two source files (the packed-vector container, the clustering model sampler,
the proposer, mixture statistics routines) are modelled from the spec as
opaque oracle functions carried in an `Env` record; each such definition says
so in its doc comment.
-/

namespace Loom

/-! ## List helper lemmas

Small facts about `List.getD`, `List.set`, `List.dropLast` and folds, proved
from first principles so the development is robust against library drift.
-/

theorem getD_set_eq {α : Type _} (l : List α) (i : Nat) (a d : α)
    (h : i < l.length) : (l.set i a).getD i d = a := by
  induction l generalizing i with
  | nil => simp at h
  | cons x xs ih =>
    cases i with
    | zero => rfl
    | succ j =>
      simp only [List.set, List.getD, List.get?]
      exact ih j (by simpa using h)

theorem getD_set_ne {α : Type _} (l : List α) (i j : Nat) (a d : α)
    (h : i ≠ j) : (l.set i a).getD j d = l.getD j d := by
  induction l generalizing i j with
  | nil => simp [List.set]
  | cons x xs ih =>
    cases i with
    | zero =>
      cases j with
      | zero => exact absurd rfl h
      | succ k => rfl
    | succ i' =>
      cases j with
      | zero => rfl
      | succ k =>
        simp only [List.set, List.getD, List.get?]
        exact ih i' k (fun hh => h (by rw [hh]))

theorem getD_set {α : Type _} (l : List α) (i j : Nat) (a d : α) :
    (l.set i a).getD j d =
      if i = j ∧ j < l.length then a else l.getD j d := by
  by_cases hij : i = j
  · subst hij
    by_cases hlt : i < l.length
    · simp [hlt, getD_set_eq l i a d hlt]
    · have : l.set i a = l := List.set_eq_of_length_le (by omega)
      simp [hlt, this]
  · simp [hij, getD_set_ne l i j a d hij]

theorem getD_append_left {α : Type _} (l₁ l₂ : List α) (j : Nat) (d : α)
    (h : j < l₁.length) : (l₁ ++ l₂).getD j d = l₁.getD j d := by
  induction l₁ generalizing j with
  | nil => simp at h
  | cons x xs ih =>
    cases j with
    | zero => rfl
    | succ k =>
      simp only [List.cons_append, List.getD, List.get?]
      exact ih k (by simpa using h)

theorem getD_append_right {α : Type _} (l₁ l₂ : List α) (j : Nat) (d : α)
    (h : l₁.length ≤ j) : (l₁ ++ l₂).getD j d = l₂.getD (j - l₁.length) d := by
  induction l₁ generalizing j with
  | nil => simp
  | cons x xs ih =>
    cases j with
    | zero => simp at h
    | succ k =>
      simp only [List.cons_append, List.getD, List.get?, List.length_cons]
      have := ih k (by simpa using h)
      simpa [Nat.succ_sub_succ] using this

theorem getD_dropLast {α : Type _} (l : List α) (j : Nat) (d : α)
    (h : j < l.length - 1) : l.dropLast.getD j d = l.getD j d := by
  induction l generalizing j with
  | nil => simp at h
  | cons x xs ih =>
    cases xs with
    | nil => simp at h
    | cons y ys =>
      cases j with
      | zero => rfl
      | succ k =>
        simp only [List.dropLast, List.getD, List.get?]
        exact ih k (by simpa using h)

theorem getD_eq_default {α : Type _} (l : List α) (j : Nat) (d : α)
    (h : l.length ≤ j) : l.getD j d = d := by
  induction l generalizing j with
  | nil => rfl
  | cons x xs ih =>
    cases j with
    | zero => simp at h
    | succ k => exact ih k (by simpa using h)

/-! ## Data model

`Kind` mirrors `CrossCat::Kind` as far as the kernel observes it: the
clustering model (`model.clustering`, opaque to the kernel, represented by a
`Nat` tag where `0` is the cleared/default model), the cached mixture
statistics (represented by the per-group count vector the kernel hands to
`mixture.init_unobserved`), and the owned feature-id set `featureids`
(a `std::set<size_t>` in the source, hence a `Finset ℕ`).
-/

structure Kind where
  model_clustering : Nat
  mixture_counts : List Nat
  featureids : Finset Nat
deriving DecidableEq

instance : Inhabited Kind := ⟨⟨0, [], ∅⟩⟩

/-- The kernel-visible state: `cross_cat_.kinds` (packed vector of kinds),
`cross_cat_.featureid_to_kindid` (a `std::vector<size_t>` indexed by feature
id), `assignments_` (the row-assignment table: per kind index, one group id
per row), the number of known rows, the random source position, and the four
counters `total_count_`, `change_count_`, `birth_count_`, `death_count_`. -/
structure KernelState where
  kinds : List Kind
  featureid_to_kindid : List Nat
  assignments : List (List Nat)
  row_count : Nat
  rng : Nat
  total_count : Nat
  change_count : Nat
  birth_count : Nat
  death_count : Nat
deriving DecidableEq

/-- Modelled from the spec: configuration inputs together with the external
collaborators the kernel calls but whose code is outside the two source
files — the grid prior size (`cross_cat_.hyper_prior.clustering().size()`),
`sample_clustering_prior`, `model.clustering.sample_assignments`, the
proposer's `infer_assignments`, and the rng consumption of the external
mixture routines (`mixture.init_unobserved`, `mixture.move_feature_to`,
`mixture_init_unobserved`), plus the mixture-statistics transfer performed by
`KindProposer::Kind::mixture.move_feature_to` on the two authoritative
mixtures (its effect on cached statistics is opaque to the kernel). Each
oracle threads the random source explicitly. -/
structure Env where
  empty_group_count : Nat
  empty_kind_count : Nat
  iterations : Nat
  grid_prior_size : Nat
  sample_clustering_prior : Nat → Nat × Nat
  sample_assignments : Nat → Nat → Nat → List Nat × Nat
  infer_assignments : KernelState → List Nat → Nat → List Nat × Nat
  move_feature_mixture : Nat → List Nat → List Nat → Nat → List Nat × List Nat × Nat
  mixture_advance : Nat → Nat

/-- The kind stored at index `i` (out-of-range reads are undefined behaviour
in the source; the model returns the default kind and every theorem that
depends on the value carries an in-range hypothesis). -/
def kindAt (s : KernelState) (i : Nat) : Kind := s.kinds.getD i default

/-- Modelled from the spec: `packed_remove` of loom's packed vector
(not in the two source files) — swap the last element into the removed
index and shrink by one, per §4.1 `remove_kind`. -/
def packedRemove {α : Type _} [Inhabited α] (l : List α) (i : Nat) : List α :=
  (l.set i (l.getD (l.length - 1) default)).dropLast

/-! ## Kernel operations, translated from `kind_kernel.cc` -/

/-- The body of `KindKernel::remove_featureless_kind` after its
`LOOM_ASSERT` guard: `packed_remove` on both the kind store and the
row-assignment table, then repoint the map entries of every feature id owned
by the kind relocated into `kindid` (iterated in `std::set` order, i.e.
ascending). -/
def removeKindRaw (s : KernelState) (kindid : Nat) : KernelState :=
  let kinds' := packedRemove s.kinds kindid
  let assignments' := packedRemove s.assignments kindid
  let map' :=
    if kindid < kinds'.length then
      ((kinds'.getD kindid default).featureids.sort (· ≤ ·)).foldl
        (fun m f => m.set f kindid) s.featureid_to_kindid
    else s.featureid_to_kindid
  { s with kinds := kinds', assignments := assignments',
           featureid_to_kindid := map' }

/-- `KindKernel::remove_featureless_kind`: the `LOOM_ASSERT` that the kind
owns no features is a fatal abort, modelled as `none`. -/
def remove_featureless_kind (s : KernelState) (kindid : Nat) :
    Option KernelState :=
  if (kindAt s kindid).featureids = ∅ then some (removeKindRaw s kindid)
  else none

/-- `KindKernel::add_featureless_kind`: append a fresh kind
(`packed_add` gives a cleared kind, so when the store was empty the
`kinds[0]` fallback reads the cleared model, hence `headD default`); sample
its clustering model from the grid prior if one is configured, otherwise
copy `kinds[0].model.clustering`; sample one group assignment per known row;
the group count is the max of `1 + groupid` over the sample plus
`empty_group_count_`; build the per-group counts and initialize the mixture
(external `init_unobserved`, modelled as recording the counts and advancing
the rng). -/
def add_featureless_kind (env : Env) (s : KernelState) : KernelState :=
  let clusterRes :=
    if env.grid_prior_size ≠ 0 then env.sample_clustering_prior s.rng
    else ((s.kinds.headD default).model_clustering, s.rng)
  let clustering := clusterRes.1
  let avRes := env.sample_assignments clustering s.row_count clusterRes.2
  let assignment_vector := avRes.1
  let group_count :=
    assignment_vector.foldl (fun g a => max g (1 + a)) 0 + env.empty_group_count
  let counts :=
    assignment_vector.foldl (fun cs g => cs.set g (cs.getD g 0 + 1))
      (List.replicate group_count 0)
  { s with
    kinds := s.kinds ++ [{ model_clustering := clustering,
                           mixture_counts := counts, featureids := ∅ }],
    assignments := s.assignments ++ [assignment_vector],
    rng := env.mixture_advance avRes.2 }

/-- Phase 1 of `KindKernel::init_featureless_kinds`: the descending loop
`for (int i = kinds.size() - 1; i >= 0; --i)` removing every kind whose
owned feature set is empty. `removeEmptyKindsFrom s (i+1)` processes index
`i` and recurses downward; the loop's guard makes the fatal assert of
`remove_featureless_kind` unreachable, so the guarded body `removeKindRaw`
is applied directly. -/
def removeEmptyKindsFrom : KernelState → Nat → KernelState
  | s, 0 => s
  | s, i + 1 =>
    removeEmptyKindsFrom
      (if (kindAt s i).featureids = ∅ then removeKindRaw s i else s) i

/-- `KindKernel::init_featureless_kinds`: remove all featureless kinds
scanning from the highest index down, then append `featureless_kind_count`
fresh featureless kinds. The trailing `update_splitter` rebuilds a derived
routing structure with no representation in this model, and the two
`validate` calls check invariants proved separately here. -/
def init_featureless_kinds (env : Env) (s : KernelState)
    (featureless_kind_count : Nat) : KernelState :=
  let s1 := removeEmptyKindsFrom s s.kinds.length
  (List.range featureless_kind_count).foldl
    (fun t _ => add_featureless_kind env t) s1

/-- `KindKernel::move_feature_to_kind`: read the feature's current kind from
the map (the source asserts `new_kindid != old_kindid`; theorems carry that
hypothesis), let the proposer's destination mixture transfer the feature's
statistics between the two authoritative mixtures (external, oracle), erase
the feature id from the source kind's owned set, insert it into the
destination kind's, and repoint the map entry. `update_splitter` and the
`validate` calls are as in `init_featureless_kinds`. -/
def move_feature_to_kind (env : Env) (s : KernelState)
    (featureid new_kindid : Nat) : KernelState :=
  let old_kindid := s.featureid_to_kindid.getD featureid 0
  let old_kind := kindAt s old_kindid
  let new_kind := kindAt s new_kindid
  let mixRes :=
    env.move_feature_mixture featureid old_kind.mixture_counts
      new_kind.mixture_counts s.rng
  let kinds' :=
    (s.kinds.set old_kindid
        { old_kind with mixture_counts := mixRes.1,
                        featureids := old_kind.featureids.erase featureid }).set
      new_kindid
      { new_kind with mixture_counts := mixRes.2.1,
                      featureids := insert featureid new_kind.featureids }
  { s with kinds := kinds',
           featureid_to_kindid :=
             s.featureid_to_kindid.set featureid new_kindid,
           rng := mixRes.2.2 }

/-- The apply loop of `KindKernel::try_run`: for every feature id in
ascending order, if the proposed kind differs from the snapshot
`old_kindids`, call `move_feature_to_kind` and increment `change_count`. -/
def applyMovesCount (env : Env) (old_kindids new_kindids : List Nat)
    (s : KernelState) : KernelState × Nat :=
  (List.range old_kindids.length).foldl
    (fun acc featureid =>
      if new_kindids.getD featureid 0 ≠ old_kindids.getD featureid 0 then
        (move_feature_to_kind env acc.1 featureid
           (new_kindids.getD featureid 0), acc.2 + 1)
      else acc)
    (s, 0)

/-- The occupancy-bit marking loops of `try_run`:
`kind_states[kindid] |= bit` for each `kindid` in `ids`. -/
def markStates (states : List Nat) (ids : List Nat) (bit : Nat) : List Nat :=
  ids.foldl (fun st k => st.set k (st.getD k 0 ||| bit)) states

/-- `KindKernel::try_run` after the proposer has produced `new_kindids`:
apply the moves, record `total_count_` and `change_count_`, compute the
birth/death statistics from the occupancy bits (`death_count_` counts state
1 = occupied before only, `birth_count_` state 2 = occupied after only),
re-run reservoir maintenance, let the proposer reinitialize its mixtures for
the unobserved kinds (external, rng only), and return `change_count > 0`. -/
def try_run_apply (env : Env) (s : KernelState)
    (old_kindids new_kindids : List Nat) : Bool × KernelState :=
  let feature_count := old_kindids.length
  let moved := applyMovesCount env old_kindids new_kindids s
  let change_count := moved.2
  let kind_count := moved.1.kinds.length
  let kind_states :=
    markStates (markStates (List.replicate kind_count 0) old_kindids 1)
      new_kindids 2
  let s2 := { moved.1 with
              total_count := feature_count,
              change_count := change_count,
              death_count := kind_states.count 1,
              birth_count := kind_states.count 2 }
  let s3 := init_featureless_kinds env s2 env.empty_kind_count
  (decide (change_count > 0), { s3 with rng := env.mixture_advance s3.rng })

/-- `KindKernel::try_run`: snapshot the map as `old_kindids`, hand a copy to
the proposer (`infer_assignments`, external oracle) to obtain `new_kindids`,
then apply. The per-phase timers are not modelled. -/
def try_run (env : Env) (s : KernelState) : Bool × KernelState :=
  let old_kindids := s.featureid_to_kindid
  let res := env.infer_assignments s old_kindids s.rng
  try_run_apply env { s with rng := res.2 } old_kindids res.1

/-- The `KindKernel` constructor: assert strictly positive `iterations_` and
`empty_kind_count_` (fatal, modelled as `none`), zero the counters, bring
the reservoir up to target, and let the proposer initialize its mixtures for
the unobserved kinds (external, rng only). -/
def kindKernelInit (env : Env) (s : KernelState) : Option KernelState :=
  if env.iterations = 0 ∨ env.empty_kind_count = 0 then none
  else
    let s1 := init_featureless_kinds env
      { s with total_count := 0, change_count := 0,
               birth_count := 0, death_count := 0 }
      env.empty_kind_count
    some { s1 with rng := env.mixture_advance s1.rng }

/-- The `KindKernel` destructor: clear the proposer (external, no kernel
state) and drive the reservoir target to zero. -/
def kindKernelDestroy (env : Env) (s : KernelState) : KernelState :=
  init_featureless_kinds env s 0

/-- The number of kinds whose owned feature set is empty. -/
def countEmptyKinds (s : KernelState) : Nat :=
  s.kinds.countP (fun k => k.featureids = ∅)

/-- The map/owned-set bijection invariant of the partition store
(spec §3 and §8): every feature id's map entry is an in-range kind index
whose kind owns that feature id, and every feature id owned by any kind is
an in-range map index whose entry is that kind's index. -/
def Inv (s : KernelState) : Prop :=
  (∀ fid, fid < s.featureid_to_kindid.length →
      s.featureid_to_kindid.getD fid 0 < s.kinds.length ∧
      fid ∈ (kindAt s (s.featureid_to_kindid.getD fid 0)).featureids) ∧
  (∀ k, k < s.kinds.length → ∀ fid ∈ (kindAt s k).featureids,
      fid < s.featureid_to_kindid.length ∧
      s.featureid_to_kindid.getD fid 0 = k)

instance (s : KernelState) : Decidable (Inv s) := by
  unfold Inv
  exact instDecidableAnd

/-! ## Protobuf stream framing, translated from `protobuf_stream.hpp`

Streams are byte lists (each byte `< 256` where it matters is irrelevant to
the framing logic, which only reads and writes whole bytes). A record is a
little-endian 32-bit length prefix followed by that many payload bytes; the
payload is modelled as the serialized message itself, matching the
`std::vector<char>` raw overloads of `write_stream` / `try_read_stream`
(the templated `Message` overloads frame the same bytes via protobuf
serialization, external to this file). -/

/-- `CodedOutputStream::WriteLittleEndian32`: four bytes, least significant
first; the `size_t` argument is truncated to 32 bits. -/
def encodeLE32 (n : Nat) : List Nat :=
  [n % 256, n / 256 % 256, n / 65536 % 256, n / 16777216 % 256]

/-- `CodedInputStream::ReadLittleEndian32` on four already-read bytes. -/
def decodeLE32 (bs : List Nat) : Nat :=
  bs.getD 0 0 + 256 * bs.getD 1 0 + 65536 * bs.getD 2 0 +
    16777216 * bs.getD 3 0

/-- `OutFile::write_stream` (raw overload): a little-endian 32-bit length
prefix followed by exactly the record's bytes. -/
def write_stream (msg : List Nat) : List Nat :=
  encodeLE32 (msg.length % 4294967296) ++ msg

/-- `protobuf_stream_dump`: write each record in order. -/
def protobuf_stream_dump (msgs : List (List Nat)) : List Nat :=
  (msgs.map write_stream).flatten

/-- Outcome of `InFile::try_read_stream`: `endOfStream` models the `false`
return (no length prefix could be read), `fatal` the `LOOM_ASSERT` abort
when the payload cannot be read in full, `ok msg rest` the `true` return
with the parsed record and the unread remainder. -/
inductive ReadResult where
  | endOfStream : ReadResult
  | fatal : ReadResult
  | ok : List Nat → List Nat → ReadResult
deriving DecidableEq

/-- `InFile::try_read_stream` (raw overload): read a 32-bit length prefix
(`false` when fewer than four bytes remain), then read exactly that many
payload bytes (fatal when the stream is shorter). -/
def try_read_stream (bs : List Nat) : ReadResult :=
  if bs.length < 4 then ReadResult.endOfStream
  else
    let message_size := decodeLE32 (bs.take 4)
    let rest := bs.drop 4
    if rest.length < message_size then ReadResult.fatal
    else ReadResult.ok (rest.take message_size) (rest.drop message_size)

theorem try_read_stream_ok_length {bs msg rest : List Nat}
    (h : try_read_stream bs = ReadResult.ok msg rest) :
    rest.length < bs.length := by
  unfold try_read_stream at h
  by_cases h4 : bs.length < 4
  · rw [if_pos h4] at h
    exact absurd h (by intro hh; cases hh)
  · rw [if_neg h4] at h
    by_cases hs : (bs.drop 4).length < decodeLE32 (bs.take 4)
    · rw [if_pos hs] at h
      exact absurd h (by intro hh; cases hh)
    · rw [if_neg hs] at h
      have h2 : ((bs.drop 4).drop (decodeLE32 (bs.take 4))) = rest :=
        (ReadResult.ok.injEq _ _ _ _).mp h |>.2
      have hlen : rest.length ≤ (bs.drop 4).length := by
        rw [← h2, List.length_drop]
        exact Nat.sub_le _ _
      have hd : (bs.drop 4).length = bs.length - 4 := List.length_drop 4 bs
      omega

/-- `protobuf_stream_load`: read records until no further length prefix can
be read, collecting them in order; a fatal parse aborts (`none`). -/
def protobuf_stream_load (bs : List Nat) : Option (List (List Nat)) :=
  match h : try_read_stream bs with
  | ReadResult.endOfStream => some []
  | ReadResult.fatal => none
  | ReadResult.ok msg rest =>
    (protobuf_stream_load rest).map (fun ms => msg :: ms)
termination_by bs.length
decreasing_by exact try_read_stream_ok_length h

/-- `protobuf::InFile` as the framing logic observes it: the full underlying
stream content (what reopening the file yields), the unread remainder, and
the record position. -/
structure InFile where
  stream : List Nat
  rest : List Nat
  position : Nat
deriving DecidableEq

/-- One iteration of the skip loop in `InFile::set_position`: read a length
prefix and `Skip` that many bytes; either failure is a fatal
`LOOM_ASSERT`. -/
def skipRecord (bs : List Nat) : Option (List Nat) :=
  if bs.length < 4 then none
  else
    let message_size := decodeLE32 (bs.take 4)
    let rest := bs.drop 4
    if rest.length < message_size then none
    else some (rest.drop message_size)

/-- `n` iterations of the skip loop. -/
def skipRecordsN : List Nat → Nat → Option (List Nat)
  | bs, 0 => some bs
  | bs, n + 1 => (skipRecord bs).bind (fun r => skipRecordsN r n)

/-- `InFile::set_position`: when the target precedes the current position,
close and reopen the file (unread remainder reset to the full stream,
position to zero), then skip records one at a time until the position
reaches the target; a skip failure is fatal (`none`). -/
def set_position (f : InFile) (target : Nat) : Option InFile :=
  let f0 :=
    if target < f.position then
      { stream := f.stream, rest := f.stream, position := 0 }
    else f
  (skipRecordsN f0.rest (target - f0.position)).map
    (fun r => { stream := f.stream, rest := r, position := target })

/-! ## Stream framing lemmas -/

theorem length_encodeLE32 (n : Nat) : (encodeLE32 n).length = 4 := rfl

theorem decodeLE32_encodeLE32 (n : Nat) (h : n < 4294967296) :
    decodeLE32 (encodeLE32 n) = n := by
  show n % 256 + 256 * (n / 256 % 256) + 65536 * (n / 65536 % 256) +
      16777216 * (n / 16777216 % 256) = n
  omega

theorem dump_nil : protobuf_stream_dump [] = [] := rfl

theorem dump_cons (m : List Nat) (ms : List (List Nat)) :
    protobuf_stream_dump (m :: ms) =
      write_stream m ++ protobuf_stream_dump ms := by
  simp [protobuf_stream_dump]

theorem try_read_stream_write (m rest : List Nat)
    (h : m.length < 4294967296) :
    try_read_stream (write_stream m ++ rest) = ReadResult.ok m rest := by
  have hmod : m.length % 4294967296 = m.length := Nat.mod_eq_of_lt h
  have hw : write_stream m ++ rest = encodeLE32 m.length ++ (m ++ rest) := by
    simp [write_stream, hmod]
  have hlen4 : (encodeLE32 m.length).length = 4 := rfl
  have htake : (encodeLE32 m.length ++ (m ++ rest)).take 4 = encodeLE32 m.length := by
    rw [← hlen4]; exact List.take_left _ _
  have hdrop : (encodeLE32 m.length ++ (m ++ rest)).drop 4 = m ++ rest := by
    rw [← hlen4]; exact List.drop_left _ _
  rw [hw]
  unfold try_read_stream
  rw [if_neg (by simp [hlen4])]
  simp only [htake, hdrop, decodeLE32_encodeLE32 m.length h]
  rw [if_neg (by simp)]
  have ht : (m ++ rest).take m.length = m := List.take_left m rest
  have hd : (m ++ rest).drop m.length = rest := List.drop_left m rest
  rw [ht, hd]

theorem try_read_stream_nil : try_read_stream [] = ReadResult.endOfStream := rfl

theorem protobuf_stream_load_eq_eos {bs : List Nat}
    (h : try_read_stream bs = ReadResult.endOfStream) :
    protobuf_stream_load bs = some [] := by
  rw [protobuf_stream_load]
  split
  · rfl
  · next heq => rw [h] at heq; cases heq
  · next m r heq => rw [h] at heq; cases heq

theorem protobuf_stream_load_eq_ok {bs msg rest : List Nat}
    (h : try_read_stream bs = ReadResult.ok msg rest) :
    protobuf_stream_load bs =
      (protobuf_stream_load rest).map (fun ms => msg :: ms) := by
  rw [protobuf_stream_load]
  split
  · next heq => rw [h] at heq; cases heq
  · next heq => rw [h] at heq; cases heq
  · next m r heq =>
    rw [h] at heq
    cases heq
    rfl

/-- C9.  Writing a finite list of records with `protobuf_stream_dump` and
reading the resulting stream back with `protobuf_stream_load` yields the
original list, in order; and `try_read_stream` reports end of stream exactly
when no 32-bit length prefix can be read (fewer than four bytes remain). -/
theorem protobuf_stream_roundtrip (msgs : List (List Nat))
    (h : ∀ m ∈ msgs, m.length < 4294967296) :
    protobuf_stream_load (protobuf_stream_dump msgs) = some msgs ∧
    (∀ bs : List Nat,
      try_read_stream bs = ReadResult.endOfStream ↔ bs.length < 4) := by
  constructor
  · revert h
    induction msgs with
    | nil =>
      intro _
      rw [dump_nil]
      exact protobuf_stream_load_eq_eos try_read_stream_nil
    | cons m ms ih =>
      intro h
      have hm : m.length < 4294967296 := h m (List.mem_cons_self m ms)
      have hms : ∀ x ∈ ms, x.length < 4294967296 :=
        fun x hx => h x (List.mem_cons_of_mem m hx)
      rw [dump_cons,
        protobuf_stream_load_eq_ok
          (try_read_stream_write m (protobuf_stream_dump ms) hm),
        ih hms]
      rfl
  · intro bs
    unfold try_read_stream
    by_cases h4 : bs.length < 4
    · simp [h4]
    · rw [if_neg h4]
      constructor
      · intro hh
        by_cases hs : (bs.drop 4).length < decodeLE32 (bs.take 4)
        · rw [if_pos hs] at hh; cases hh
        · rw [if_neg hs] at hh; cases hh
      · intro hh; exact absurd hh h4

/-- Witness for C9 at a concrete list of records. -/
theorem protobuf_stream_roundtrip_witness :
    protobuf_stream_load (protobuf_stream_dump [[7], [8, 9], []]) =
      some [[7], [8, 9], []] :=
  (protobuf_stream_roundtrip [[7], [8, 9], []] (by decide)).1

theorem skipRecord_write (m rest : List Nat) (h : m.length < 4294967296) :
    skipRecord (write_stream m ++ rest) = some rest := by
  have hmod : m.length % 4294967296 = m.length := Nat.mod_eq_of_lt h
  have hw : write_stream m ++ rest = encodeLE32 m.length ++ (m ++ rest) := by
    simp [write_stream, hmod]
  have hlen4 : (encodeLE32 m.length).length = 4 := rfl
  have htake : (encodeLE32 m.length ++ (m ++ rest)).take 4 = encodeLE32 m.length := by
    rw [← hlen4]; exact List.take_left _ _
  have hdrop : (encodeLE32 m.length ++ (m ++ rest)).drop 4 = m ++ rest := by
    rw [← hlen4]; exact List.drop_left _ _
  rw [hw]
  unfold skipRecord
  rw [if_neg (by simp [hlen4])]
  simp only [htake, hdrop, decodeLE32_encodeLE32 m.length h]
  rw [if_neg (by simp)]
  rw [List.drop_left m rest]

theorem skipRecordsN_dump (msgs : List (List Nat)) (g : List Nat) (k : Nat)
    (hsz : ∀ m ∈ msgs, m.length < 4294967296) (hk : k ≤ msgs.length) :
    skipRecordsN (protobuf_stream_dump msgs ++ g) k =
      some (protobuf_stream_dump (msgs.drop k) ++ g) := by
  induction k generalizing msgs with
  | zero => rfl
  | succ k ih =>
    cases msgs with
    | nil => simp at hk
    | cons m ms =>
      have hm : m.length < 4294967296 := hsz m (List.mem_cons_self m ms)
      have hms : ∀ x ∈ ms, x.length < 4294967296 :=
        fun x hx => hsz x (List.mem_cons_of_mem m hx)
      rw [dump_cons, List.append_assoc]
      show (skipRecord (write_stream m ++ (protobuf_stream_dump ms ++ g))).bind
        (fun r => skipRecordsN r k) = _
      rw [skipRecord_write m _ hm]
      simpa using ih ms hms (by simpa using hk)

theorem skipRecordsN_dump_none (msgs : List (List Nat)) (k : Nat)
    (hsz : ∀ m ∈ msgs, m.length < 4294967296) (hk : msgs.length < k) :
    skipRecordsN (protobuf_stream_dump msgs) k = none := by
  induction msgs generalizing k with
  | nil =>
    cases k with
    | zero => simp at hk
    | succ k =>
      show (skipRecord []).bind (fun r => skipRecordsN r k) = none
      rfl
  | cons m ms ih =>
    cases k with
    | zero => simp at hk
    | succ k =>
      have hm : m.length < 4294967296 := hsz m (List.mem_cons_self m ms)
      have hms : ∀ x ∈ ms, x.length < 4294967296 :=
        fun x hx => hsz x (List.mem_cons_of_mem m hx)
      rw [dump_cons]
      show (skipRecord (write_stream m ++ protobuf_stream_dump ms)).bind
        (fun r => skipRecordsN r k) = none
      rw [skipRecord_write m _ hm]
      exact ih k hms (by simpa using hk)

/-- C10.  If the underlying stream holds the records of `msgs` (possibly
followed by trailing bytes `g`) and the unread remainder corresponds to the
current record position, then for any target at most the record count,
`set_position` succeeds and establishes `position = target` — including when
the target precedes the current position, via close-and-reopen; and when the
exact stream holds fewer than `target` records, `set_position` aborts
fatally (`none`). -/
theorem set_position_spec (f : InFile) (msgs : List (List Nat))
    (g : List Nat) (target : Nat)
    (hsz : ∀ m ∈ msgs, m.length < 4294967296)
    (hstream : f.stream = protobuf_stream_dump msgs ++ g)
    (hrest : f.rest = protobuf_stream_dump (msgs.drop f.position) ++ g)
    (hpos : f.position ≤ msgs.length) :
    (target ≤ msgs.length →
      set_position f target =
        some { stream := f.stream,
               rest := protobuf_stream_dump (msgs.drop target) ++ g,
               position := target }) ∧
    (g = [] → msgs.length < target → set_position f target = none) := by
  have hszdrop : ∀ p, ∀ m ∈ msgs.drop p, m.length < 4294967296 :=
    fun p m hm => hsz m (List.drop_subset p msgs hm)
  have hback : target < f.position →
      set_position f target =
        (skipRecordsN f.stream target).map
          (fun r => { stream := f.stream, rest := r, position := target }) := by
    intro hlt
    unfold set_position
    rw [if_pos hlt]
    exact rfl
  have hfwd : ¬target < f.position →
      set_position f target =
        (skipRecordsN f.rest (target - f.position)).map
          (fun r => { stream := f.stream, rest := r, position := target }) := by
    intro hlt
    unfold set_position
    rw [if_neg hlt]
  constructor
  · intro htgt
    by_cases hlt : target < f.position
    · rw [hback hlt, hstream, skipRecordsN_dump msgs g target hsz htgt]
      rfl
    · have hle : f.position ≤ target := Nat.le_of_not_lt hlt
      have hk : target - f.position ≤ (msgs.drop f.position).length := by
        rw [List.length_drop]; omega
      rw [hfwd hlt, hrest, skipRecordsN_dump _ g _ (hszdrop f.position) hk,
        List.drop_drop, Nat.add_sub_cancel' hle]
      rfl
  · intro hg htgt
    by_cases hlt : target < f.position
    · rw [hback hlt, hstream, hg, List.append_nil,
        skipRecordsN_dump_none msgs target hsz htgt]
      rfl
    · have hk : (msgs.drop f.position).length < target - f.position := by
        rw [List.length_drop]; omega
      rw [hfwd hlt, hrest, hg, List.append_nil,
        skipRecordsN_dump_none _ _ (hszdrop f.position) hk]
      rfl

/-- Witness for C10: a two-record stream, repositioning backwards from
record 2 to record 1 (exercising the reopen path). -/
theorem set_position_witness :
    set_position { stream := protobuf_stream_dump [[7], [8, 9]],
                   rest := [], position := 2 } 1 =
      some { stream := protobuf_stream_dump [[7], [8, 9]],
             rest := protobuf_stream_dump [[8, 9]], position := 1 } := by
  have h := (set_position_spec
    { stream := protobuf_stream_dump [[7], [8, 9]], rest := [], position := 2 }
    [[7], [8, 9]] [] 1 (by decide) (by simp) (by simp [protobuf_stream_dump])
    (by decide)).1 (by decide)
  simpa using h

/-! ## Partition-store lemmas -/

theorem length_packedRemove {α : Type _} [Inhabited α] (l : List α) (i : Nat) :
    (packedRemove l i).length = l.length - 1 := by
  simp [packedRemove]

theorem getD_packedRemove {α : Type _} [Inhabited α] (l : List α) (i j : Nat)
    (d : α) (hj : j < l.length - 1) :
    (packedRemove l i).getD j d =
      if i = j then l.getD (l.length - 1) d else l.getD j d := by
  unfold packedRemove
  rw [getD_dropLast _ _ _ (by simpa using hj)]
  rw [getD_set]
  by_cases hij : i = j
  · have hd : l.getD (l.length - 1) default = l.getD (l.length - 1) d := by
      have hlast : l.length - 1 < l.length := by omega
      rw [List.getD_eq_getElem l default hlast, List.getD_eq_getElem l d hlast]
    rw [if_pos ⟨hij, (by omega : j < l.length)⟩, if_pos hij]
    exact hd
  · rw [if_neg (fun hc => hij hc.1), if_neg hij]

theorem foldl_set_getD (ids : List Nat) (v : Nat) (m : List Nat)
    (f : Nat) (d : Nat) :
    (ids.foldl (fun acc x => acc.set x v) m).getD f d =
      if f ∈ ids ∧ f < m.length then v else m.getD f d := by
  induction ids generalizing m with
  | nil => simp
  | cons x t ih =>
    show (t.foldl (fun acc y => acc.set y v) (m.set x v)).getD f d = _
    rw [ih (m.set x v), List.length_set]
    by_cases hfl : f < m.length
    · by_cases hft : f ∈ t
      · rw [if_pos ⟨hft, hfl⟩, if_pos ⟨List.mem_cons_of_mem x hft, hfl⟩]
      · rw [if_neg (fun hc => hft hc.1), getD_set]
        by_cases hxf : x = f
        · rw [if_pos ⟨hxf, hfl⟩,
            if_pos ⟨List.mem_cons.mpr (Or.inl hxf.symm), hfl⟩]
        · rw [if_neg (fun hc => hxf hc.1),
            if_neg (fun hc =>
              (List.mem_cons.mp hc.1).elim (fun h1 => hxf h1.symm) hft)]
    · rw [if_neg (fun hc => hfl hc.2), if_neg (fun hc => hfl hc.2), getD_set,
        if_neg (fun hc => hfl hc.2)]

theorem foldl_set_length (ids : List Nat) (v : Nat) (m : List Nat) :
    (ids.foldl (fun acc x => acc.set x v) m).length = m.length := by
  induction ids generalizing m with
  | nil => rfl
  | cons x t ih =>
    show (t.foldl (fun acc x => acc.set x v) (m.set x v)).length = m.length
    rw [ih (m.set x v), List.length_set]

theorem removeKindRaw_kinds_length (s : KernelState) (kindid : Nat) :
    (removeKindRaw s kindid).kinds.length = s.kinds.length - 1 := by
  simp [removeKindRaw, length_packedRemove]

theorem removeKindRaw_assignments_length (s : KernelState) (kindid : Nat) :
    (removeKindRaw s kindid).assignments.length = s.assignments.length - 1 := by
  simp [removeKindRaw, length_packedRemove]

theorem removeKindRaw_map_length (s : KernelState) (kindid : Nat) :
    (removeKindRaw s kindid).featureid_to_kindid.length =
      s.featureid_to_kindid.length := by
  unfold removeKindRaw
  by_cases h : kindid < (packedRemove s.kinds kindid).length
  · simp [h, foldl_set_length]
  · simp [h]

theorem removeKindRaw_counters (s : KernelState) (kindid : Nat) :
    (removeKindRaw s kindid).total_count = s.total_count ∧
    (removeKindRaw s kindid).change_count = s.change_count ∧
    (removeKindRaw s kindid).birth_count = s.birth_count ∧
    (removeKindRaw s kindid).death_count = s.death_count ∧
    (removeKindRaw s kindid).rng = s.rng ∧
    (removeKindRaw s kindid).row_count = s.row_count := by
  unfold removeKindRaw
  exact ⟨rfl, rfl, rfl, rfl, rfl, rfl⟩

theorem kindAt_removeKindRaw (s : KernelState) (kindid j : Nat)
    (hj : j < s.kinds.length - 1) :
    kindAt (removeKindRaw s kindid) j =
      if kindid = j then kindAt s (s.kinds.length - 1) else kindAt s j := by
  unfold kindAt removeKindRaw
  exact getD_packedRemove s.kinds kindid j default hj

theorem removeKindRaw_map_getD (s : KernelState) (kindid f : Nat)
    (hk : kindid < s.kinds.length - 1) :
    (removeKindRaw s kindid).featureid_to_kindid.getD f 0 =
      if f ∈ (kindAt s (s.kinds.length - 1)).featureids ∧
          f < s.featureid_to_kindid.length then kindid
      else s.featureid_to_kindid.getD f 0 := by
  unfold removeKindRaw
  have hlen : kindid < (packedRemove s.kinds kindid).length := by
    rw [length_packedRemove]; exact hk
  simp only [hlen, if_true]
  rw [foldl_set_getD]
  have hrel : (packedRemove s.kinds kindid).getD kindid default =
      kindAt s (s.kinds.length - 1) := by
    rw [getD_packedRemove s.kinds kindid kindid default hk, if_pos rfl]
    rfl
  rw [hrel]
  by_cases hmem : f ∈ (kindAt s (s.kinds.length - 1)).featureids
  · simp [Finset.mem_sort, hmem]
  · simp [Finset.mem_sort, hmem]

theorem removeKindRaw_map_last (s : KernelState) (kindid : Nat)
    (hk : ¬ kindid < s.kinds.length - 1) :
    (removeKindRaw s kindid).featureid_to_kindid = s.featureid_to_kindid := by
  unfold removeKindRaw
  have hlen : ¬ kindid < (packedRemove s.kinds kindid).length := by
    rw [length_packedRemove]; exact hk
  simp [hlen]

/-! ## Concrete test fixtures (used by witness theorems) -/

/-- A deterministic environment: no grid prior (clustering copied from kind
0), one extra empty group, reservoir target 2, proposer that returns its
input map unchanged. -/
def testEnv : Env where
  empty_group_count := 1
  empty_kind_count := 2
  iterations := 1
  grid_prior_size := 0
  sample_clustering_prior := fun r => (5, r + 1)
  sample_assignments := fun _ rc r => (List.replicate rc 0, r + 1)
  infer_assignments := fun _ m r => (m, r)
  move_feature_mixture := fun _ om nm r => (om, nm, r + 1)
  mixture_advance := fun r => r + 1

/-- A one-kind partition owning features 0, 1, 2 over two rows. -/
def testState : KernelState where
  kinds := [⟨3, [2], {0, 1, 2}⟩]
  featureid_to_kindid := [0, 0, 0]
  assignments := [[0, 1]]
  row_count := 2
  rng := 0
  total_count := 0
  change_count := 0
  birth_count := 0
  death_count := 0

/-- Three kinds at indices 0, 1, 2: kind 0 owns feature 0, kind 1 is empty,
kind 2 owns features 1 and 2 — removal of kind 1 relocates kind 2. -/
def testState3 : KernelState where
  kinds := [⟨3, [1], {0}⟩, ⟨4, [1], ∅⟩, ⟨5, [1], {1, 2}⟩]
  featureid_to_kindid := [0, 2, 2]
  assignments := [[0], [0], [0]]
  row_count := 1
  rng := 0
  total_count := 0
  change_count := 0
  birth_count := 0
  death_count := 0

/-! ## Claims C6 and C7: removal of featureless kinds -/

/-- C6.  `remove_featureless_kind` aborts fatally (modelled `none`) exactly
when the kind at `kindid` owns at least one feature; since the assertion
precedes every mutation, nothing is changed on the fatal path, and only on
an empty kind does it proceed to the actual removal. -/
theorem remove_featureless_kind_fatal (s : KernelState) (kindid : Nat) :
    (remove_featureless_kind s kindid = none ↔
      (kindAt s kindid).featureids ≠ ∅) ∧
    ((kindAt s kindid).featureids = ∅ →
      remove_featureless_kind s kindid = some (removeKindRaw s kindid)) := by
  unfold remove_featureless_kind
  by_cases h : (kindAt s kindid).featureids = ∅
  · simp [h]
  · simp [h]

/-- Witness for C6: removing occupied kind 0 of `testState` aborts; removing
the empty kind 1 of `testState3` proceeds. -/
theorem remove_featureless_kind_fatal_witness :
    remove_featureless_kind testState 0 = none ∧
    remove_featureless_kind testState3 1 = some (removeKindRaw testState3 1) :=
  ⟨(remove_featureless_kind_fatal testState 0).1.mpr (by decide),
   (remove_featureless_kind_fatal testState3 1).2 (by decide)⟩

/-- C7.  Removing an empty kind swaps the last kind into its index (when the
index is not already last) and shrinks both the kind store and the
row-assignment table by one; every feature id owned by the relocated kind is
repointed to the freed index, map entries of features owned by all other
kinds are unchanged, and when the removed index was the last one the map is
unchanged entirely. -/
theorem remove_featureless_kind_renumbering (s : KernelState) (kindid : Nat)
    (hInv : Inv s) (hk : kindid < s.kinds.length)
    (hempty : (kindAt s kindid).featureids = ∅) :
    ∃ s', remove_featureless_kind s kindid = some s' ∧
      s'.kinds.length = s.kinds.length - 1 ∧
      s'.assignments.length = s.assignments.length - 1 ∧
      (kindid < s.kinds.length - 1 →
        kindAt s' kindid = kindAt s (s.kinds.length - 1) ∧
        (∀ fid ∈ (kindAt s (s.kinds.length - 1)).featureids,
          s'.featureid_to_kindid.getD fid 0 = kindid) ∧
        (∀ j, j < s.kinds.length → j ≠ s.kinds.length - 1 →
          ∀ fid ∈ (kindAt s j).featureids,
            s'.featureid_to_kindid.getD fid 0 =
              s.featureid_to_kindid.getD fid 0)) ∧
      (kindid = s.kinds.length - 1 →
        s'.featureid_to_kindid = s.featureid_to_kindid) := by
  refine ⟨removeKindRaw s kindid,
    (remove_featureless_kind_fatal s kindid).2 hempty,
    removeKindRaw_kinds_length s kindid,
    removeKindRaw_assignments_length s kindid, ?_, ?_⟩
  · intro hlt
    have hlast : s.kinds.length - 1 < s.kinds.length := by omega
    refine ⟨?_, ?_, ?_⟩
    · rw [kindAt_removeKindRaw s kindid kindid hlt, if_pos rfl]
    · intro fid hfid
      rw [removeKindRaw_map_getD s kindid fid hlt,
        if_pos ⟨hfid, (hInv.2 _ hlast fid hfid).1⟩]
    · intro j hj hjne fid hfid
      rw [removeKindRaw_map_getD s kindid fid hlt]
      rw [if_neg ?_]
      intro hc
      have h1 : s.featureid_to_kindid.getD fid 0 = s.kinds.length - 1 :=
        (hInv.2 _ hlast fid hc.1).2
      have h2 : s.featureid_to_kindid.getD fid 0 = j :=
        (hInv.2 j hj fid hfid).2
      exact hjne (h2 ▸ h1)
  · intro heq
    exact removeKindRaw_map_last s kindid (by omega)

/-- Witness for C7 at `testState3`, removing the empty kind at index 1. -/
theorem remove_featureless_kind_renumbering_witness :
    ∃ s', remove_featureless_kind testState3 1 = some s' ∧
      s'.kinds.length = testState3.kinds.length - 1 ∧
      s'.assignments.length = testState3.assignments.length - 1 ∧
      (1 < testState3.kinds.length - 1 →
        kindAt s' 1 = kindAt testState3 (testState3.kinds.length - 1) ∧
        (∀ fid ∈ (kindAt testState3 (testState3.kinds.length - 1)).featureids,
          s'.featureid_to_kindid.getD fid 0 = 1) ∧
        (∀ j, j < testState3.kinds.length → j ≠ testState3.kinds.length - 1 →
          ∀ fid ∈ (kindAt testState3 j).featureids,
            s'.featureid_to_kindid.getD fid 0 =
              testState3.featureid_to_kindid.getD fid 0)) ∧
      (1 = testState3.kinds.length - 1 →
        s'.featureid_to_kindid = testState3.featureid_to_kindid) :=
  remove_featureless_kind_renumbering testState3 1 (by decide) (by decide)
    (by decide)

/-! ## Claim C8: fresh featureless kinds -/

theorem foldl_max_succ (av : List Nat) (acc : Nat) :
    av.foldl (fun g a => max g (1 + a)) acc =
      max acc (av.foldl (fun g a => max g (1 + a)) 0) := by
  induction av generalizing acc with
  | nil => simp
  | cons a t ih =>
    show t.foldl (fun g x => max g (1 + x)) (max acc (1 + a)) =
      max acc (t.foldl (fun g x => max g (1 + x)) (max 0 (1 + a)))
    rw [ih (max acc (1 + a)), ih (max 0 (1 + a))]
    omega

theorem foldl_max_succ_eq (av : List Nat) :
    av.foldl (fun g a => max g (1 + a)) 0 =
      if av.isEmpty then 0 else 1 + av.foldr max 0 := by
  induction av with
  | nil => rfl
  | cons a t ih =>
    show t.foldl (fun g x => max g (1 + x)) (max 0 (1 + a)) = _
    rw [foldl_max_succ t (max 0 (1 + a)), ih]
    cases t with
    | nil => simp
    | cons b u =>
      simp [List.foldr]
      omega

theorem le_foldl_max_succ (av : List Nat) (a : Nat) (ha : a ∈ av) :
    1 + a ≤ av.foldl (fun g x => max g (1 + x)) 0 := by
  induction av with
  | nil => cases ha
  | cons b t ih =>
    show 1 + a ≤ t.foldl (fun g x => max g (1 + x)) (max 0 (1 + b))
    rw [foldl_max_succ t (max 0 (1 + b))]
    rcases List.mem_cons.mp ha with h1 | h1
    · omega
    · have := ih h1
      omega

theorem counts_foldl_length (av : List Nat) (cs : List Nat) :
    (av.foldl (fun acc x => acc.set x (acc.getD x 0 + 1)) cs).length =
      cs.length := by
  induction av generalizing cs with
  | nil => rfl
  | cons a t ih =>
    show (t.foldl (fun acc x => acc.set x (acc.getD x 0 + 1))
      (cs.set a (cs.getD a 0 + 1))).length = cs.length
    rw [ih (cs.set a (cs.getD a 0 + 1)), List.length_set]

theorem counts_foldl_getD (av : List Nat) (cs : List Nat) (g : Nat)
    (hb : ∀ a ∈ av, a < cs.length) :
    (av.foldl (fun acc x => acc.set x (acc.getD x 0 + 1)) cs).getD g 0 =
      cs.getD g 0 + av.count g := by
  induction av generalizing cs with
  | nil => simp
  | cons a t ih =>
    show (t.foldl (fun acc x => acc.set x (acc.getD x 0 + 1))
      (cs.set a (cs.getD a 0 + 1))).getD g 0 = _
    have hbt : ∀ x ∈ t, x < (cs.set a (cs.getD a 0 + 1)).length := by
      intro x hx
      rw [List.length_set]
      exact hb x (List.mem_cons_of_mem a hx)
    rw [ih _ hbt, getD_set]
    have hal : a < cs.length := hb a (List.mem_cons_self a t)
    by_cases hag : a = g
    · subst hag
      simp only [hal, and_true, if_pos rfl, List.count_cons]
      simp
      omega
    · simp [hag, List.count_cons, Ne.symm hag]

/-- The state produced by `add_featureless_kind`, spelled out. -/
theorem add_featureless_kind_eq (env : Env) (s : KernelState)
    (cl r1 : Nat) (av : List Nat) (r2 : Nat)
    (hcl : (if env.grid_prior_size ≠ 0 then env.sample_clustering_prior s.rng
            else ((s.kinds.headD default).model_clustering, s.rng)) = (cl, r1))
    (hav : env.sample_assignments cl s.row_count r1 = (av, r2)) :
    add_featureless_kind env s =
      { s with
        kinds := s.kinds ++
          [{ model_clustering := cl,
             mixture_counts :=
               av.foldl (fun acc x => acc.set x (acc.getD x 0 + 1))
                 (List.replicate
                   (av.foldl (fun g a => max g (1 + a)) 0 +
                     env.empty_group_count) 0),
             featureids := ∅ }],
        assignments := s.assignments ++ [av],
        rng := env.mixture_advance r2 } := by
  have hcl1 : (if env.grid_prior_size ≠ 0 then env.sample_clustering_prior s.rng
      else ((s.kinds.headD default).model_clustering, s.rng)).1 = cl := by
    rw [hcl]
  have hcl2 : (if env.grid_prior_size ≠ 0 then env.sample_clustering_prior s.rng
      else ((s.kinds.headD default).model_clustering, s.rng)).2 = r1 := by
    rw [hcl]
  have hav1 : (env.sample_assignments cl s.row_count r1).1 = av := by rw [hav]
  have hav2 : (env.sample_assignments cl s.row_count r1).2 = r2 := by rw [hav]
  simp only [add_featureless_kind]
  rw [hcl1, hcl2, hav1, hav2]

/-- C8.  `add_featureless_kind` appends exactly one kind, owning no
features, whose clustering model is sampled from the grid prior when one is
configured and otherwise copied from kind index 0; it draws one group
assignment per known row (appending the sampled vector to the row-assignment
table), and initializes the kind's cached statistics with one group per
sampled group id up to the largest (zero groups when the sample is empty)
plus `empty_group_count` extra empty groups, each group's count being its
multiplicity in the sample. -/
theorem add_featureless_kind_spec (env : Env) (s : KernelState)
    (cl r1 : Nat) (av : List Nat) (r2 : Nat)
    (hcl : (if env.grid_prior_size ≠ 0 then env.sample_clustering_prior s.rng
            else ((s.kinds.headD default).model_clustering, s.rng)) = (cl, r1))
    (hav : env.sample_assignments cl s.row_count r1 = (av, r2))
    (hlen : av.length = s.row_count) :
    (add_featureless_kind env s).kinds.length = s.kinds.length + 1 ∧
    (kindAt (add_featureless_kind env s) s.kinds.length).featureids = ∅ ∧
    (kindAt (add_featureless_kind env s) s.kinds.length).model_clustering
      = cl ∧
    (env.grid_prior_size ≠ 0 → cl = (env.sample_clustering_prior s.rng).1) ∧
    (env.grid_prior_size = 0 → s.kinds ≠ [] →
      cl = (kindAt s 0).model_clustering) ∧
    (add_featureless_kind env s).assignments = s.assignments ++ [av] ∧
    av.length = s.row_count ∧
    (kindAt (add_featureless_kind env s) s.kinds.length).mixture_counts.length
      = (if av.isEmpty then 0 else 1 + av.foldr max 0) +
        env.empty_group_count ∧
    (∀ g, (kindAt (add_featureless_kind env s)
        s.kinds.length).mixture_counts.getD g 0 = av.count g) := by
  have heq := add_featureless_kind_eq env s cl r1 av r2 hcl hav
  set gcount := av.foldl (fun g a => max g (1 + a)) 0 + env.empty_group_count
    with hgc
  have hbound : ∀ a ∈ av, a < (List.replicate gcount 0 : List Nat).length := by
    intro a ha
    rw [List.length_replicate]
    have := le_foldl_max_succ av a ha
    omega
  have hkind : kindAt (add_featureless_kind env s) s.kinds.length =
      { model_clustering := cl,
        mixture_counts :=
          av.foldl (fun acc x => acc.set x (acc.getD x 0 + 1))
            (List.replicate gcount 0),
        featureids := ∅ } := by
    rw [heq]
    unfold kindAt
    show (s.kinds ++ [_]).getD s.kinds.length default = _
    rw [getD_append_right _ _ _ _ (Nat.le_refl _), Nat.sub_self]
    rfl
  refine ⟨?_, ?_, ?_, ?_, ?_, ?_, hlen, ?_, ?_⟩
  · rw [heq]; simp
  · rw [hkind]
  · rw [hkind]
  · intro hg
    rw [if_pos hg] at hcl
    rw [hcl]
  · intro hg hne
    rw [if_neg (by simp [hg])] at hcl
    have : (s.kinds.headD default).model_clustering = cl :=
      (Prod.mk.injEq _ _ _ _).mp hcl |>.1
    rw [← this]
    unfold kindAt
    cases hsk : s.kinds with
    | nil => exact absurd hsk hne
    | cons a t => rfl
  · rw [heq]
  · rw [hkind]
    show (av.foldl (fun acc x => acc.set x (acc.getD x 0 + 1))
      (List.replicate gcount 0)).length = _
    rw [counts_foldl_length, List.length_replicate, hgc, foldl_max_succ_eq]
  · intro g
    rw [hkind]
    show (av.foldl (fun acc x => acc.set x (acc.getD x 0 + 1))
      (List.replicate gcount 0)).getD g 0 = av.count g
    rw [counts_foldl_getD av _ g hbound]
    have hz : (List.replicate gcount (0 : Nat)).getD g 0 = 0 := by
      by_cases hgl : g < gcount
      · rw [List.getD_eq_getElem _ _ (by simpa using hgl)]
        simp
      · exact getD_eq_default _ _ _ (by simpa using Nat.le_of_not_lt hgl)
    rw [hz, Nat.zero_add]

/-- Witness for C8 at `testEnv` / `testState` (grid prior absent, clustering
copied from kind 0; two rows sampled into group 0). -/
theorem add_featureless_kind_spec_witness :
    (add_featureless_kind testEnv testState).kinds.length =
      testState.kinds.length + 1 ∧
    (kindAt (add_featureless_kind testEnv testState)
      testState.kinds.length).featureids = ∅ ∧
    (kindAt (add_featureless_kind testEnv testState)
      testState.kinds.length).model_clustering = 3 ∧
    (testEnv.grid_prior_size ≠ 0 →
      3 = (testEnv.sample_clustering_prior testState.rng).1) ∧
    (testEnv.grid_prior_size = 0 → testState.kinds ≠ [] →
      3 = (kindAt testState 0).model_clustering) ∧
    (add_featureless_kind testEnv testState).assignments =
      testState.assignments ++ [[0, 0]] ∧
    ([0, 0] : List Nat).length = testState.row_count ∧
    (kindAt (add_featureless_kind testEnv testState)
        testState.kinds.length).mixture_counts.length =
      (if ([0, 0] : List Nat).isEmpty then 0
       else 1 + ([0, 0] : List Nat).foldr max 0) +
        testEnv.empty_group_count ∧
    (∀ g, (kindAt (add_featureless_kind testEnv testState)
        testState.kinds.length).mixture_counts.getD g 0 =
      ([0, 0] : List Nat).count g) :=
  add_featureless_kind_spec testEnv testState 3 0 [0, 0] 1
    (by decide) (by decide) (by decide)

/-! ## Claim C2: the reservoir invariant -/

theorem forall_mem_of_forall_kindAt {P : Kind → Prop} (s : KernelState)
    (h : ∀ j, j < s.kinds.length → P (kindAt s j)) : ∀ a ∈ s.kinds, P a := by
  intro a ha
  obtain ⟨i, hi, hgt⟩ := List.mem_iff_getElem.mp ha
  have hk := h i hi
  rw [kindAt, List.getD_eq_getElem s.kinds default hi, hgt] at hk
  exact hk

/-- After the descending scan of phase 1, no kind is featureless: the scan
never skips a kind relocated by swap-removal because relocation only moves
kinds downward from already-visited indices. -/
theorem removeEmptyKindsFrom_nonempty :
    ∀ (i : Nat) (s : KernelState), i ≤ s.kinds.length →
    (∀ j, i ≤ j → j < s.kinds.length → (kindAt s j).featureids ≠ ∅) →
    ∀ j, j < (removeEmptyKindsFrom s i).kinds.length →
      (kindAt (removeEmptyKindsFrom s i) j).featureids ≠ ∅ := by
  intro i
  induction i with
  | zero =>
    intro s hle hup j hj
    exact hup j (Nat.zero_le j) hj
  | succ i ih =>
    intro s hle hup
    rw [show removeEmptyKindsFrom s (i + 1) =
        removeEmptyKindsFrom
          (if (kindAt s i).featureids = ∅ then removeKindRaw s i else s) i
      from rfl]
    by_cases hemp : (kindAt s i).featureids = ∅
    · rw [if_pos hemp]
      have hlen : (removeKindRaw s i).kinds.length = s.kinds.length - 1 :=
        removeKindRaw_kinds_length s i
      apply ih (removeKindRaw s i) (by omega)
      intro j hij hjlt
      rw [hlen] at hjlt
      rw [kindAt_removeKindRaw s i j hjlt]
      by_cases hij2 : i = j
      · rw [if_pos hij2]
        exact hup (s.kinds.length - 1) (by omega) (by omega)
      · rw [if_neg hij2]
        exact hup j (by omega) (by omega)
    · rw [if_neg hemp]
      apply ih s (by omega)
      intro j hij hjlt
      by_cases hij2 : i = j
      · rw [← hij2]; exact hemp
      · exact hup j (by omega) hjlt

theorem countEmpty_phase1 (s : KernelState) :
    countEmptyKinds (removeEmptyKindsFrom s s.kinds.length) = 0 := by
  apply List.countP_eq_zero.mpr
  have h := removeEmptyKindsFrom_nonempty s.kinds.length s (Nat.le_refl _)
    (fun j hj hj2 => absurd hj2 (by omega))
  have hall := forall_mem_of_forall_kindAt
    (P := fun k => k.featureids ≠ ∅) (removeEmptyKindsFrom s s.kinds.length) h
  intro a ha
  simpa using hall a ha

theorem countEmpty_add (env : Env) (s : KernelState) :
    countEmptyKinds (add_featureless_kind env s) = countEmptyKinds s + 1 := by
  unfold countEmptyKinds add_featureless_kind
  simp [List.countP_append, List.countP_cons]

theorem countEmpty_adds (env : Env) (n : Nat) :
    ∀ s : KernelState,
      countEmptyKinds ((List.range n).foldl
        (fun t _ => add_featureless_kind env t) s) = countEmptyKinds s + n := by
  induction n with
  | zero => intro s; rfl
  | succ n ih =>
    intro s
    rw [List.range_succ, List.foldl_append]
    show countEmptyKinds (add_featureless_kind env _) = _
    rw [countEmpty_add, ih s]
    omega

/-- C2.  Immediately after `init_featureless_kinds target` — hence after
construction (`target = empty_kind_count`), after every `try_run`, and after
destruction (`target = 0`) — the number of featureless kinds equals the
target exactly: phase 1 removes every empty kind without skipping any
relocated one, and phase 2 appends exactly `target` fresh empty kinds. -/
theorem init_featureless_kinds_reservoir (env : Env) (s : KernelState)
    (n : Nat) :
    countEmptyKinds (init_featureless_kinds env s n) = n ∧
    countEmptyKinds (try_run env s).2 = env.empty_kind_count ∧
    countEmptyKinds (kindKernelDestroy env s) = 0 ∧
    (∀ s', kindKernelInit env s = some s' →
      countEmptyKinds s' = env.empty_kind_count) := by
  have hgen : ∀ (t : KernelState) (m : Nat),
      countEmptyKinds (init_featureless_kinds env t m) = m := by
    intro t m
    unfold init_featureless_kinds
    rw [countEmpty_adds, countEmpty_phase1, Nat.zero_add]
  refine ⟨hgen s n, ?_, hgen s 0, ?_⟩
  · show countEmptyKinds (try_run_apply env _ _ _).2 = env.empty_kind_count
    unfold try_run_apply
    exact hgen _ env.empty_kind_count
  · intro s' hs'
    unfold kindKernelInit at hs'
    by_cases hc : env.iterations = 0 ∨ env.empty_kind_count = 0
    · rw [if_pos hc] at hs'; cases hs'
    · rw [if_neg hc] at hs'
      have := (Option.some.injEq _ _).mp hs'
      rw [← this]
      exact hgen _ env.empty_kind_count

/-- Witness for C2 at the concrete fixture. -/
theorem init_featureless_kinds_reservoir_witness :
    countEmptyKinds (init_featureless_kinds testEnv testState 3) = 3 ∧
    countEmptyKinds ((kindKernelInit testEnv testState).getD testState) =
      testEnv.empty_kind_count :=
  ⟨(init_featureless_kinds_reservoir testEnv testState 3).1,
   (init_featureless_kinds_reservoir testEnv testState 3).2.2.2
     ((kindKernelInit testEnv testState).getD testState) (by decide)⟩

/-! ## Claim C1: the map/owned-set bijection invariant -/

theorem move_kinds_length (env : Env) (s : KernelState) (fid k : Nat) :
    (move_feature_to_kind env s fid k).kinds.length = s.kinds.length := by
  simp [move_feature_to_kind]

theorem move_map_length (env : Env) (s : KernelState) (fid k : Nat) :
    (move_feature_to_kind env s fid k).featureid_to_kindid.length =
      s.featureid_to_kindid.length := by
  simp [move_feature_to_kind]

theorem move_map_getD (env : Env) (s : KernelState) (fid k f : Nat) :
    (move_feature_to_kind env s fid k).featureid_to_kindid.getD f 0 =
      if fid = f ∧ f < s.featureid_to_kindid.length then k
      else s.featureid_to_kindid.getD f 0 := by
  show (s.featureid_to_kindid.set fid k).getD f 0 = _
  exact getD_set s.featureid_to_kindid fid f k 0

theorem move_counters (env : Env) (s : KernelState) (fid k : Nat) :
    (move_feature_to_kind env s fid k).total_count = s.total_count ∧
    (move_feature_to_kind env s fid k).change_count = s.change_count ∧
    (move_feature_to_kind env s fid k).birth_count = s.birth_count ∧
    (move_feature_to_kind env s fid k).death_count = s.death_count ∧
    (move_feature_to_kind env s fid k).assignments = s.assignments ∧
    (move_feature_to_kind env s fid k).row_count = s.row_count :=
  ⟨rfl, rfl, rfl, rfl, rfl, rfl⟩

theorem featureids_kindAt_move (env : Env) (s : KernelState) (fid k j : Nat)
    (hne : k ≠ s.featureid_to_kindid.getD fid 0) (hj : j < s.kinds.length) :
    (kindAt (move_feature_to_kind env s fid k) j).featureids =
      if k = j then insert fid (kindAt s k).featureids
      else if s.featureid_to_kindid.getD fid 0 = j then
        (kindAt s j).featureids.erase fid
      else (kindAt s j).featureids := by
  set o := s.featureid_to_kindid.getD fid 0 with ho
  show ((((s.kinds.set o _).set k _).getD j default).featureids) = _
  rw [getD_set]
  by_cases hkj : k = j
  · rw [if_pos ⟨hkj, by simpa using hj⟩, if_pos hkj]
  · rw [if_neg (fun hc => hkj hc.1)]
    rw [if_neg hkj]
    rw [getD_set]
    by_cases hoj : o = j
    · rw [if_pos ⟨hoj, hj⟩, if_pos hoj]
      show ((kindAt s o).featureids.erase fid) = _
      rw [hoj]
    · rw [if_neg (fun hc => hoj hc.1), if_neg hoj]
      rfl

theorem move_feature_to_kind_Inv (env : Env) (s : KernelState) (fid k : Nat)
    (hInv : Inv s) (hfid : fid < s.featureid_to_kindid.length)
    (hk : k < s.kinds.length)
    (hne : k ≠ s.featureid_to_kindid.getD fid 0) :
    Inv (move_feature_to_kind env s fid k) := by
  obtain ⟨h1, h2⟩ := hInv
  have hmlen := move_map_length env s fid k
  have hklen := move_kinds_length env s fid k
  constructor
  · intro f hf
    rw [hmlen] at hf
    rw [move_map_getD env s fid k f]
    by_cases hff : fid = f
    · rw [if_pos ⟨hff, hf⟩]
      refine ⟨by rw [hklen]; exact hk, ?_⟩
      rw [featureids_kindAt_move env s fid k k hne hk, if_pos rfl]
      subst hff
      exact Finset.mem_insert_self fid _
    · rw [if_neg (fun hc => hff hc.1)]
      obtain ⟨hjlt, hjmem⟩ := h1 f hf
      refine ⟨by rw [hklen]; exact hjlt, ?_⟩
      rw [featureids_kindAt_move env s fid k _ hne hjlt]
      by_cases hkj : k = s.featureid_to_kindid.getD f 0
      · rw [if_pos hkj]
        rw [← hkj] at hjmem
        exact Finset.mem_insert_of_mem hjmem
      · rw [if_neg hkj]
        by_cases hoj : s.featureid_to_kindid.getD fid 0 =
            s.featureid_to_kindid.getD f 0
        · rw [if_pos hoj]
          exact Finset.mem_erase.mpr ⟨fun hc => hff hc.symm, hjmem⟩
        · rw [if_neg hoj]
          exact hjmem
  · intro j hj f hf
    rw [hklen] at hj
    rw [featureids_kindAt_move env s fid k j hne hj] at hf
    rw [hmlen, move_map_getD env s fid k f]
    by_cases hkj : k = j
    · rw [if_pos hkj] at hf
      rcases Finset.mem_insert.mp hf with hfe | hfe
    -- the moved feature itself, and the destination's prior features
      · subst hfe
        exact ⟨hfid, by rw [if_pos ⟨rfl, hfid⟩]; exact hkj⟩
      · obtain ⟨hflt, hfeq⟩ := h2 k hk f hfe
        have hff : fid ≠ f := by
          intro hc
          subst hc
          exact hne hfeq.symm
        exact ⟨hflt, by rw [if_neg (fun hc => hff hc.1)]; rw [hfeq, hkj]⟩
    · rw [if_neg hkj] at hf
      by_cases hoj : s.featureid_to_kindid.getD fid 0 = j
      · rw [if_pos hoj] at hf
        obtain ⟨hffne, hfmem⟩ := Finset.mem_erase.mp hf
        obtain ⟨hflt, hfeq⟩ := h2 j hj f hfmem
        exact ⟨hflt, by rw [if_neg (fun hc => hffne hc.1.symm)]; exact hfeq⟩
      · rw [if_neg hoj] at hf
        obtain ⟨hflt, hfeq⟩ := h2 j hj f hf
        have hff : fid ≠ f := by
          intro hc
          subst hc
          exact hoj hfeq
        exact ⟨hflt, by rw [if_neg (fun hc => hff hc.1)]; exact hfeq⟩

theorem removeKindRaw_Inv (s : KernelState) (kindid : Nat) (hInv : Inv s)
    (hk : kindid < s.kinds.length)
    (hempty : (kindAt s kindid).featureids = ∅) :
    Inv (removeKindRaw s kindid) := by
  obtain ⟨h1, h2⟩ := hInv
  have hlenk := removeKindRaw_kinds_length s kindid
  have hlenm := removeKindRaw_map_length s kindid
  by_cases hlast : kindid < s.kinds.length - 1
  · constructor
    · intro f hf
      rw [hlenm] at hf
      rw [removeKindRaw_map_getD s kindid f hlast]
      by_cases hmem : f ∈ (kindAt s (s.kinds.length - 1)).featureids
      · rw [if_pos ⟨hmem, hf⟩]
        refine ⟨by omega, ?_⟩
        rw [kindAt_removeKindRaw s kindid kindid hlast, if_pos rfl]
        exact hmem
      · rw [if_neg (fun hc => hmem hc.1)]
        obtain ⟨hjlt, hjmem⟩ := h1 f hf
        have hne1 : s.featureid_to_kindid.getD f 0 ≠ s.kinds.length - 1 := by
          intro hc
          rw [hc] at hjmem
          exact hmem hjmem
        have hne2 : s.featureid_to_kindid.getD f 0 ≠ kindid := by
          intro hc
          rw [hc, hempty] at hjmem
          cases hjmem
        have hjlt' : s.featureid_to_kindid.getD f 0 < s.kinds.length - 1 := by
          omega
        refine ⟨by omega, ?_⟩
        rw [kindAt_removeKindRaw s kindid _ hjlt', if_neg (fun hc => hne2 hc.symm)]
        exact hjmem
    · intro j hj f hf
      rw [hlenk] at hj
      rw [kindAt_removeKindRaw s kindid j hj] at hf
      rw [hlenm, removeKindRaw_map_getD s kindid f hlast]
      by_cases hkj : kindid = j
      · rw [if_pos hkj] at hf
        obtain ⟨hflt, hfeq⟩ := h2 (s.kinds.length - 1) (by omega) f hf
        exact ⟨hflt, by rw [if_pos ⟨hf, hflt⟩]; exact hkj⟩
      · rw [if_neg hkj] at hf
        obtain ⟨hflt, hfeq⟩ := h2 j (by omega) f hf
        have hmem : f ∉ (kindAt s (s.kinds.length - 1)).featureids := by
          intro hc
          have := (h2 (s.kinds.length - 1) (by omega) f hc).2
          omega
        exact ⟨hflt, by rw [if_neg (fun hc => hmem hc.1)]; exact hfeq⟩
  · have hkid : kindid = s.kinds.length - 1 := by omega
    have hmap := removeKindRaw_map_last s kindid hlast
    constructor
    · intro f hf
      rw [hlenm] at hf
      rw [hmap]
      obtain ⟨hjlt, hjmem⟩ := h1 f hf
      have hne1 : s.featureid_to_kindid.getD f 0 ≠ kindid := by
        intro hc
        rw [hc, hempty] at hjmem
        cases hjmem
      have hjlt' : s.featureid_to_kindid.getD f 0 < s.kinds.length - 1 := by
        omega
      refine ⟨by omega, ?_⟩
      rw [kindAt_removeKindRaw s kindid _ hjlt',
        if_neg (fun hc => hne1 hc.symm)]
      exact hjmem
    · intro j hj f hf
      rw [hlenk] at hj
      rw [kindAt_removeKindRaw s kindid j hj,
        if_neg (by omega : ¬ kindid = j)] at hf
      rw [hlenm, hmap]
      exact h2 j (by omega) f hf

theorem add_shape (env : Env) (s : KernelState) :
    ∃ K : Kind, (add_featureless_kind env s).kinds = s.kinds ++ [K] ∧
      K.featureids = ∅ ∧
      (add_featureless_kind env s).featureid_to_kindid =
        s.featureid_to_kindid := by
  refine ⟨_, rfl, rfl, rfl⟩

theorem add_featureless_kind_Inv (env : Env) (s : KernelState)
    (hInv : Inv s) : Inv (add_featureless_kind env s) := by
  obtain ⟨h1, h2⟩ := hInv
  obtain ⟨K, hK, hKe, hKm⟩ := add_shape env s
  have hlen : (add_featureless_kind env s).kinds.length = s.kinds.length + 1 := by
    rw [hK]; simp
  constructor
  · intro f hf
    rw [hKm] at hf ⊢
    obtain ⟨hjlt, hjmem⟩ := h1 f hf
    refine ⟨by omega, ?_⟩
    unfold kindAt
    rw [hK, getD_append_left _ _ _ _ hjlt]
    exact hjmem
  · intro j hj f hf
    rw [hlen] at hj
    rw [hKm]
    unfold kindAt at hf
    rw [hK] at hf
    by_cases hjl : j < s.kinds.length
    · rw [getD_append_left _ _ _ _ hjl] at hf
      exact h2 j hjl f hf
    · have hje : j = s.kinds.length := by omega
      rw [getD_append_right _ _ _ _ (by omega), hje, Nat.sub_self] at hf
      have hKd : ([K].getD 0 default) = K := rfl
      rw [hKd, hKe] at hf
      cases hf

theorem removeEmptyKindsFrom_Inv :
    ∀ (i : Nat) (s : KernelState), i ≤ s.kinds.length → Inv s →
      Inv (removeEmptyKindsFrom s i) := by
  intro i
  induction i with
  | zero => intro s _ hInv; exact hInv
  | succ i ih =>
    intro s hle hInv
    rw [show removeEmptyKindsFrom s (i + 1) =
        removeEmptyKindsFrom
          (if (kindAt s i).featureids = ∅ then removeKindRaw s i else s) i
      from rfl]
    by_cases hemp : (kindAt s i).featureids = ∅
    · rw [if_pos hemp]
      refine ih (removeKindRaw s i) ?_ (removeKindRaw_Inv s i hInv (by omega) hemp)
      rw [removeKindRaw_kinds_length]
      omega
    · rw [if_neg hemp]
      exact ih s (by omega) hInv

theorem init_featureless_kinds_Inv (env : Env) (s : KernelState) (n : Nat)
    (hInv : Inv s) : Inv (init_featureless_kinds env s n) := by
  unfold init_featureless_kinds
  have hphase1 : Inv (removeEmptyKindsFrom s s.kinds.length) :=
    removeEmptyKindsFrom_Inv s.kinds.length s (Nat.le_refl _) hInv
  generalize removeEmptyKindsFrom s s.kinds.length = t at hphase1 ⊢
  induction n with
  | zero => exact hphase1
  | succ n ih =>
    rw [List.range_succ, List.foldl_append]
    exact add_featureless_kind_Inv env _ ih

theorem Inv_set_rng (s : KernelState) (r : Nat) :
    Inv { s with rng := r } ↔ Inv s := Iff.rfl

theorem Inv_set_counters (s : KernelState) (a b c d : Nat) :
    Inv { s with total_count := a, change_count := b,
                 death_count := c, birth_count := d } ↔ Inv s := Iff.rfl

/-- The apply loop of `try_run` preserves the bijection invariant: each
iterate's move has a valid destination and a genuinely different source, and
processed feature ids never recur (`Nodup`), so the unprocessed map entries
still agree with the snapshot. -/
theorem applyMoves_loop_spec (env : Env) (old new : List Nat) :
    ∀ (L : List Nat) (s : KernelState) (c : Nat),
      Inv s →
      s.featureid_to_kindid.length = old.length →
      (∀ i ∈ L, i < old.length) →
      (∀ i ∈ L, s.featureid_to_kindid.getD i 0 = old.getD i 0) →
      (∀ i ∈ L, new.getD i 0 < s.kinds.length) →
      L.Nodup →
      Inv (L.foldl (fun acc featureid =>
          if new.getD featureid 0 ≠ old.getD featureid 0 then
            (move_feature_to_kind env acc.1 featureid (new.getD featureid 0),
             acc.2 + 1)
          else acc) (s, c)).1 ∧
      (L.foldl (fun acc featureid =>
          if new.getD featureid 0 ≠ old.getD featureid 0 then
            (move_feature_to_kind env acc.1 featureid (new.getD featureid 0),
             acc.2 + 1)
          else acc) (s, c)).1.kinds.length = s.kinds.length ∧
      (L.foldl (fun acc featureid =>
          if new.getD featureid 0 ≠ old.getD featureid 0 then
            (move_feature_to_kind env acc.1 featureid (new.getD featureid 0),
             acc.2 + 1)
          else acc) (s, c)).1.featureid_to_kindid.length =
        s.featureid_to_kindid.length := by
  intro L
  induction L with
  | nil =>
    intro s c hInv _ _ _ _ _
    exact ⟨hInv, rfl, rfl⟩
  | cons i t ih =>
    intro s c hInv hml hlt hold hnew hnd
    rw [List.foldl_cons]
    by_cases hg : new.getD i 0 ≠ old.getD i 0
    · rw [if_pos hg]
      have hmem : i ∈ i :: t := List.mem_cons_self i t
      have hfin : i < s.featureid_to_kindid.length := by
        rw [hml]; exact hlt i hmem
      have hkin : new.getD i 0 < s.kinds.length := hnew i hmem
      have hne : new.getD i 0 ≠ s.featureid_to_kindid.getD i 0 := by
        rw [hold i hmem]; exact hg
      have hInv1 := move_feature_to_kind_Inv env s i (new.getD i 0)
        hInv hfin hkin hne
      have hnotmem : i ∉ t := (List.nodup_cons.mp hnd).1
      have hres := ih (move_feature_to_kind env s i (new.getD i 0)) (c + 1)
        hInv1
        (by rw [move_map_length]; exact hml)
        (fun j hj => hlt j (List.mem_cons_of_mem i hj))
        (fun j hj => by
          rw [move_map_getD]
          rw [if_neg (by intro hc; exact hnotmem (hc.1 ▸ hj))]
          exact hold j (List.mem_cons_of_mem i hj))
        (fun j hj => by
          rw [move_kinds_length]
          exact hnew j (List.mem_cons_of_mem i hj))
        (List.nodup_cons.mp hnd).2
      refine ⟨hres.1, ?_, ?_⟩
      · rw [hres.2.1, move_kinds_length]
      · rw [hres.2.2, move_map_length]
    · rw [if_neg hg]
      exact ih s c hInv hml
        (fun j hj => hlt j (List.mem_cons_of_mem i hj))
        (fun j hj => hold j (List.mem_cons_of_mem i hj))
        (fun j hj => hnew j (List.mem_cons_of_mem i hj))
        (List.nodup_cons.mp hnd).2

theorem applyMovesCount_eq_foldl (env : Env) (old new : List Nat)
    (s : KernelState) :
    applyMovesCount env old new s =
      (List.range old.length).foldl (fun acc featureid =>
        if new.getD featureid 0 ≠ old.getD featureid 0 then
          (move_feature_to_kind env acc.1 featureid (new.getD featureid 0),
           acc.2 + 1)
        else acc) (s, 0) := rfl

theorem try_run_eq (env : Env) (s : KernelState) (new : List Nat) (r : Nat)
    (hinfer : env.infer_assignments s s.featureid_to_kindid s.rng = (new, r)) :
    try_run env s =
      try_run_apply env { s with rng := r } s.featureid_to_kindid new := by
  have h1 : (env.infer_assignments s s.featureid_to_kindid s.rng).1 = new := by
    rw [hinfer]
  have h2 : (env.infer_assignments s s.featureid_to_kindid s.rng).2 = r := by
    rw [hinfer]
  simp only [try_run]
  rw [h1, h2]

theorem try_run_apply_fst (env : Env) (s : KernelState) (old new : List Nat) :
    (try_run_apply env s old new).1 =
      decide ((applyMovesCount env old new s).2 > 0) := rfl

theorem try_run_apply_snd (env : Env) (s : KernelState) (old new : List Nat) :
    (try_run_apply env s old new).2 =
      { init_featureless_kinds env
          { (applyMovesCount env old new s).1 with
            total_count := old.length,
            change_count := (applyMovesCount env old new s).2,
            death_count :=
              (markStates (markStates
                (List.replicate
                  (applyMovesCount env old new s).1.kinds.length 0)
                old 1) new 2).count 1,
            birth_count :=
              (markStates (markStates
                (List.replicate
                  (applyMovesCount env old new s).1.kinds.length 0)
                old 1) new 2).count 2 }
          env.empty_kind_count
        with rng := env.mixture_advance (init_featureless_kinds env
          { (applyMovesCount env old new s).1 with
            total_count := old.length,
            change_count := (applyMovesCount env old new s).2,
            death_count :=
              (markStates (markStates
                (List.replicate
                  (applyMovesCount env old new s).1.kinds.length 0)
                old 1) new 2).count 1,
            birth_count :=
              (markStates (markStates
                (List.replicate
                  (applyMovesCount env old new s).1.kinds.length 0)
                old 1) new 2).count 2 }
          env.empty_kind_count).rng } := rfl

theorem try_run_Inv (env : Env) (s : KernelState) (new : List Nat) (r : Nat)
    (hInv : Inv s)
    (hinfer : env.infer_assignments s s.featureid_to_kindid s.rng = (new, r))
    (hb : ∀ i, i < s.featureid_to_kindid.length →
      new.getD i 0 < s.kinds.length) :
    Inv (try_run env s).2 := by
  rw [try_run_eq env s new r hinfer, try_run_apply_snd]
  rw [Inv_set_rng]
  apply init_featureless_kinds_Inv
  rw [Inv_set_counters]
  rw [applyMovesCount_eq_foldl]
  have hInv' : Inv { s with rng := r } := (Inv_set_rng s r).mpr hInv
  exact (applyMoves_loop_spec env s.featureid_to_kindid new
    (List.range s.featureid_to_kindid.length) { s with rng := r } 0
    hInv' rfl
    (fun i hi => List.mem_range.mp hi)
    (fun i _ => rfl)
    (fun i hi => hb i (List.mem_range.mp hi))
    (List.nodup_range _)).1

theorem kindKernelInit_Inv (env : Env) (s s' : KernelState) (hInv : Inv s)
    (h : kindKernelInit env s = some s') : Inv s' := by
  unfold kindKernelInit at h
  by_cases hc : env.iterations = 0 ∨ env.empty_kind_count = 0
  · rw [if_pos hc] at h; cases h
  · rw [if_neg hc] at h
    have hse := (Option.some.injEq _ _).mp h
    rw [← hse, Inv_set_rng]
    apply init_featureless_kinds_Inv
    exact (Inv_set_counters s 0 0 0 0).mpr hInv

/-- C1.  The map/owned-set bijection (`Inv`) holds in every reachable state:
each of the four mutating operations preserves it (under the source's
asserted preconditions and, for `try_run`, the proposer contract that the
proposed kind indices are in range), and it is re-established after
construction, after every `try_run`, and after destruction. -/
theorem bijection_invariant_preserved :
    (∀ (env : Env) (s : KernelState) (fid k : Nat), Inv s →
      fid < s.featureid_to_kindid.length → k < s.kinds.length →
      k ≠ s.featureid_to_kindid.getD fid 0 →
      Inv (move_feature_to_kind env s fid k)) ∧
    (∀ (s : KernelState) (kindid : Nat) (s' : KernelState), Inv s →
      kindid < s.kinds.length →
      remove_featureless_kind s kindid = some s' → Inv s') ∧
    (∀ (env : Env) (s : KernelState), Inv s →
      Inv (add_featureless_kind env s)) ∧
    (∀ (env : Env) (s : KernelState) (n : Nat), Inv s →
      Inv (init_featureless_kinds env s n)) ∧
    (∀ (env : Env) (s s' : KernelState), Inv s →
      kindKernelInit env s = some s' → Inv s') ∧
    (∀ (env : Env) (s : KernelState) (new : List Nat) (r : Nat), Inv s →
      env.infer_assignments s s.featureid_to_kindid s.rng = (new, r) →
      (∀ i, i < s.featureid_to_kindid.length →
        new.getD i 0 < s.kinds.length) →
      Inv (try_run env s).2) ∧
    (∀ (env : Env) (s : KernelState), Inv s →
      Inv (kindKernelDestroy env s)) := by
  refine ⟨move_feature_to_kind_Inv, ?_, add_featureless_kind_Inv,
    init_featureless_kinds_Inv, kindKernelInit_Inv, try_run_Inv, ?_⟩
  · intro s kindid s' hInv hk h
    unfold remove_featureless_kind at h
    by_cases hemp : (kindAt s kindid).featureids = ∅
    · rw [if_pos hemp] at h
      have hse := (Option.some.injEq _ _).mp h
      rw [← hse]
      exact removeKindRaw_Inv s kindid hInv hk hemp
    · rw [if_neg hemp] at h
      cases h
  · intro env s hInv
    exact init_featureless_kinds_Inv env s 0 hInv

/-- Witness for C1, exercising a move, an append, a full transition and
destruction at the concrete fixtures. -/
theorem bijection_invariant_preserved_witness :
    Inv (move_feature_to_kind testEnv testState3 1 0) ∧
    Inv (add_featureless_kind testEnv testState) ∧
    Inv (try_run testEnv testState).2 ∧
    Inv (kindKernelDestroy testEnv testState3) :=
  ⟨bijection_invariant_preserved.1 testEnv testState3 1 0 (by decide)
     (by decide) (by decide) (by decide),
   bijection_invariant_preserved.2.2.1 testEnv testState (by decide),
   bijection_invariant_preserved.2.2.2.2.2.1 testEnv testState
     testState.featureid_to_kindid testState.rng (by decide) rfl (by decide),
   bijection_invariant_preserved.2.2.2.2.2.2 testEnv testState3 (by decide)⟩

/-! ## Claims C3, C4, C5: the transition's counters and return value -/

theorem removeEmpty_counters : ∀ (i : Nat) (s : KernelState),
    (removeEmptyKindsFrom s i).total_count = s.total_count ∧
    (removeEmptyKindsFrom s i).change_count = s.change_count ∧
    (removeEmptyKindsFrom s i).birth_count = s.birth_count ∧
    (removeEmptyKindsFrom s i).death_count = s.death_count := by
  intro i
  induction i with
  | zero => intro s; exact ⟨rfl, rfl, rfl, rfl⟩
  | succ i ih =>
    intro s
    rw [show removeEmptyKindsFrom s (i + 1) =
        removeEmptyKindsFrom
          (if (kindAt s i).featureids = ∅ then removeKindRaw s i else s) i
      from rfl]
    by_cases hemp : (kindAt s i).featureids = ∅
    · rw [if_pos hemp]
      obtain ⟨a, b, c, d⟩ := ih (removeKindRaw s i)
      obtain ⟨a', b', c', d', _, _⟩ := removeKindRaw_counters s i
      exact ⟨a.trans a', b.trans b', c.trans c', d.trans d'⟩
    · rw [if_neg hemp]
      exact ih s

theorem add_counters (env : Env) (s : KernelState) :
    (add_featureless_kind env s).total_count = s.total_count ∧
    (add_featureless_kind env s).change_count = s.change_count ∧
    (add_featureless_kind env s).birth_count = s.birth_count ∧
    (add_featureless_kind env s).death_count = s.death_count :=
  ⟨rfl, rfl, rfl, rfl⟩

theorem init_counters (env : Env) (s : KernelState) (n : Nat) :
    (init_featureless_kinds env s n).total_count = s.total_count ∧
    (init_featureless_kinds env s n).change_count = s.change_count ∧
    (init_featureless_kinds env s n).birth_count = s.birth_count ∧
    (init_featureless_kinds env s n).death_count = s.death_count := by
  unfold init_featureless_kinds
  have hadds : ∀ (m : Nat) (t : KernelState),
      ((List.range m).foldl (fun u _ => add_featureless_kind env u)
        t).total_count = t.total_count ∧
      ((List.range m).foldl (fun u _ => add_featureless_kind env u)
        t).change_count = t.change_count ∧
      ((List.range m).foldl (fun u _ => add_featureless_kind env u)
        t).birth_count = t.birth_count ∧
      ((List.range m).foldl (fun u _ => add_featureless_kind env u)
        t).death_count = t.death_count := by
    intro m
    induction m with
    | zero => intro t; exact ⟨rfl, rfl, rfl, rfl⟩
    | succ m ih =>
      intro t
      rw [List.range_succ, List.foldl_append]
      show (add_featureless_kind env _).total_count = _ ∧ _
      obtain ⟨a, b, c, d⟩ :=
        add_counters env ((List.range m).foldl
          (fun u _ => add_featureless_kind env u) t)
      obtain ⟨a', b', c', d'⟩ := ih t
      exact ⟨a.trans a', b.trans b', c.trans c', d.trans d'⟩
  obtain ⟨a, b, c, d⟩ := hadds n (removeEmptyKindsFrom s s.kinds.length)
  obtain ⟨a', b', c', d'⟩ := removeEmpty_counters s.kinds.length s
  exact ⟨a.trans a', b.trans b', c.trans c', d.trans d'⟩

theorem applyMovesCount_self (env : Env) (old : List Nat) (s : KernelState) :
    applyMovesCount env old old s = (s, 0) := by
  rw [applyMovesCount_eq_foldl]
  generalize List.range old.length = L
  induction L with
  | nil => rfl
  | cons i t ih =>
    rw [List.foldl_cons, if_neg (fun hc => hc rfl)]
    exact ih

theorem markStates_length (st ids : List Nat) (bit : Nat) :
    (markStates st ids bit).length = st.length := by
  induction ids generalizing st with
  | nil => rfl
  | cons k t ih =>
    show (markStates (st.set k (st.getD k 0 ||| bit)) t bit).length = _
    rw [ih (st.set k (st.getD k 0 ||| bit)), List.length_set]

theorem markStates_getD (ids : List Nat) (st : List Nat) (bit j : Nat) :
    (markStates st ids bit).getD j 0 =
      if j ∈ ids ∧ j < st.length then st.getD j 0 ||| bit
      else st.getD j 0 := by
  induction ids generalizing st with
  | nil => simp [markStates]
  | cons k t ih =>
    show (markStates (st.set k (st.getD k 0 ||| bit)) t bit).getD j 0 = _
    rw [ih (st.set k (st.getD k 0 ||| bit)), List.length_set, getD_set]
    by_cases hjl : j < st.length
    · by_cases hjt : j ∈ t
      · by_cases hkj : k = j
        · subst hkj
          simp [hjl, hjt, Nat.or_assoc, Nat.or_self]
        · simp [hjl, hjt, hkj, List.mem_cons]
      · by_cases hkj : k = j
        · subst hkj
          simp [hjl, hjt, List.mem_cons]
        · have hjk : ¬ j = k := fun h => hkj h.symm
          simp [hjl, hjt, hkj, hjk, List.mem_cons]
    · simp [hjl]

theorem getD_replicate_zero (K j : Nat) :
    (List.replicate K (0 : Nat)).getD j 0 = 0 := by
  by_cases hj : j < K
  · rw [List.getD_eq_getElem _ _ (by simpa using hj)]
    simp
  · exact getD_eq_default _ _ _ (by simpa using Nat.le_of_not_lt hj)

theorem kindStates_getD (old new : List Nat) (K j : Nat) (hj : j < K) :
    (markStates (markStates (List.replicate K 0) old 1) new 2).getD j 0 =
      (if j ∈ old then 1 else 0) + (if j ∈ new then 2 else 0) := by
  rw [markStates_getD new _ 2 j, markStates_length, List.length_replicate,
    markStates_getD old _ 1 j, List.length_replicate, getD_replicate_zero]
  by_cases ho : j ∈ old
  · by_cases hn : j ∈ new
    · simp [ho, hn, hj]
    · simp [ho, hn, hj]
  · by_cases hn : j ∈ new
    · simp [ho, hn, hj]
    · simp [ho, hn, hj]

theorem count_eq_zero_of_getD (st : List Nat) (v : Nat)
    (h : ∀ j, j < st.length → st.getD j 0 ≠ v) : st.count v = 0 := by
  rw [List.count_eq_zero]
  intro hmem
  obtain ⟨j, hj, hget⟩ := List.mem_iff_getElem.mp hmem
  exact h j hj (by rw [List.getD_eq_getElem st 0 hj, hget])

theorem marks_self_count (old : List Nat) (K : Nat) :
    (markStates (markStates (List.replicate K 0) old 1) old 2).count 1 = 0 ∧
    (markStates (markStates (List.replicate K 0) old 1) old 2).count 2 = 0 := by
  have hlen : (markStates (markStates (List.replicate K 0) old 1)
      old 2).length = K := by
    rw [markStates_length, markStates_length, List.length_replicate]
  have hval : ∀ j, j < K →
      (markStates (markStates (List.replicate K 0) old 1) old 2).getD j 0 = 0 ∨
      (markStates (markStates (List.replicate K 0) old 1) old 2).getD j 0 = 3 := by
    intro j hj
    rw [kindStates_getD old old K j hj]
    by_cases ho : j ∈ old
    · right; rw [if_pos ho, if_pos ho]
    · left; rw [if_neg ho, if_neg ho]
  constructor
  · apply count_eq_zero_of_getD
    intro j hj
    rw [hlen] at hj
    rcases hval j hj with h0 | h3 <;> omega
  · apply count_eq_zero_of_getD
    intro j hj
    rw [hlen] at hj
    rcases hval j hj with h0 | h3 <;> omega

/-- C3.  When the proposer returns the old map unchanged, `try_run` returns
false, the counters read `change_count = birth_count = death_count = 0` and
`total_count = feature_count`, no `move_feature_to_kind` call is made (the
apply loop leaves the state untouched), and the final state is exactly the
reservoir bookkeeping (`init_featureless_kinds` plus the proposer's mixture
refresh) applied to the otherwise unchanged state. -/
theorem try_run_noop (env : Env) (s : KernelState) (r : Nat)
    (hinfer : env.infer_assignments s s.featureid_to_kindid s.rng =
      (s.featureid_to_kindid, r)) :
    (try_run env s).1 = false ∧
    (try_run env s).2.change_count = 0 ∧
    (try_run env s).2.birth_count = 0 ∧
    (try_run env s).2.death_count = 0 ∧
    (try_run env s).2.total_count = s.featureid_to_kindid.length ∧
    (try_run env s).2 =
      { init_featureless_kinds env
          { s with rng := r,
                   total_count := s.featureid_to_kindid.length,
                   change_count := 0, birth_count := 0, death_count := 0 }
          env.empty_kind_count
        with rng := env.mixture_advance (init_featureless_kinds env
          { s with rng := r,
                   total_count := s.featureid_to_kindid.length,
                   change_count := 0, birth_count := 0, death_count := 0 }
          env.empty_kind_count).rng } := by
  have htr := try_run_eq env s s.featureid_to_kindid r hinfer
  have happly :=
    applyMovesCount_self env s.featureid_to_kindid { s with rng := r }
  have hsnd := try_run_apply_snd env { s with rng := r }
    s.featureid_to_kindid s.featureid_to_kindid
  rw [happly] at hsnd
  dsimp only at hsnd
  rw [(marks_self_count s.featureid_to_kindid s.kinds.length).1,
    (marks_self_count s.featureid_to_kindid s.kinds.length).2] at hsnd
  have hfst := try_run_apply_fst env { s with rng := r }
    s.featureid_to_kindid s.featureid_to_kindid
  rw [happly] at hfst
  refine ⟨?_, ?_, ?_, ?_, ?_, ?_⟩
  · rw [htr, hfst]
    exact rfl
  · rw [htr, hsnd]
    show (init_featureless_kinds env _ env.empty_kind_count).change_count = 0
    rw [(init_counters env _ env.empty_kind_count).2.1]
  · rw [htr, hsnd]
    show (init_featureless_kinds env _ env.empty_kind_count).birth_count = 0
    rw [(init_counters env _ env.empty_kind_count).2.2.1]
  · rw [htr, hsnd]
    show (init_featureless_kinds env _ env.empty_kind_count).death_count = 0
    rw [(init_counters env _ env.empty_kind_count).2.2.2]
  · rw [htr, hsnd]
    show (init_featureless_kinds env _ env.empty_kind_count).total_count = _
    rw [(init_counters env _ env.empty_kind_count).1]
  · rw [htr, hsnd]

/-- Witness for C3 with the identity proposer of `testEnv`. -/
theorem try_run_noop_witness :
    (try_run testEnv testState).1 = false ∧
    (try_run testEnv testState).2.change_count = 0 ∧
    (try_run testEnv testState).2.birth_count = 0 ∧
    (try_run testEnv testState).2.death_count = 0 ∧
    (try_run testEnv testState).2.total_count =
      testState.featureid_to_kindid.length ∧
    (try_run testEnv testState).2 =
      { init_featureless_kinds testEnv
          { testState with rng := testState.rng,
                           total_count :=
                             testState.featureid_to_kindid.length,
                           change_count := 0, birth_count := 0,
                           death_count := 0 }
          testEnv.empty_kind_count
        with rng := testEnv.mixture_advance (init_featureless_kinds testEnv
          { testState with rng := testState.rng,
                           total_count :=
                             testState.featureid_to_kindid.length,
                           change_count := 0, birth_count := 0,
                           death_count := 0 }
          testEnv.empty_kind_count).rng } :=
  try_run_noop testEnv testState testState.rng rfl

/-- The feature ids whose proposed kind differs from the snapshot — exactly
the features the apply loop moves. -/
def diffIndices (old new : List Nat) : List Nat :=
  (List.range old.length).filter (fun i => new.getD i 0 ≠ old.getD i 0)

theorem foldl_moves_fst (env : Env) (old new : List Nat) :
    ∀ (L : List Nat) (s : KernelState) (c : Nat),
      (L.foldl (fun acc featureid =>
        if new.getD featureid 0 ≠ old.getD featureid 0 then
          (move_feature_to_kind env acc.1 featureid (new.getD featureid 0),
           acc.2 + 1)
        else acc) (s, c)).1 =
      (L.filter (fun i => new.getD i 0 ≠ old.getD i 0)).foldl
        (fun t i => move_feature_to_kind env t i (new.getD i 0)) s := by
  intro L
  induction L with
  | nil => intro s c; rfl
  | cons i t ih =>
    intro s c
    rw [List.foldl_cons]
    by_cases hg : new.getD i 0 ≠ old.getD i 0
    · rw [if_pos hg, List.filter_cons_of_pos (by simpa using hg),
        List.foldl_cons]
      exact ih (move_feature_to_kind env s i (new.getD i 0)) (c + 1)
    · rw [if_neg hg, List.filter_cons_of_neg (by simpa using hg)]
      exact ih s c

theorem foldl_moves_snd (env : Env) (old new : List Nat) :
    ∀ (L : List Nat) (s : KernelState) (c : Nat),
      (L.foldl (fun acc featureid =>
        if new.getD featureid 0 ≠ old.getD featureid 0 then
          (move_feature_to_kind env acc.1 featureid (new.getD featureid 0),
           acc.2 + 1)
        else acc) (s, c)).2 =
      c + (L.filter (fun i => new.getD i 0 ≠ old.getD i 0)).length := by
  intro L
  induction L with
  | nil => intro s c; simp
  | cons i t ih =>
    intro s c
    rw [List.foldl_cons]
    by_cases hg : new.getD i 0 ≠ old.getD i 0
    · rw [if_pos hg, List.filter_cons_of_pos (by simpa using hg),
        ih (move_feature_to_kind env s i (new.getD i 0)) (c + 1)]
      rw [List.length_cons]
      omega
    · rw [if_neg hg, List.filter_cons_of_neg (by simpa using hg)]
      exact ih s c

theorem applyMovesCount_kinds_length (env : Env) (old new : List Nat)
    (s : KernelState) :
    (applyMovesCount env old new s).1.kinds.length = s.kinds.length := by
  rw [applyMovesCount_eq_foldl]
  have hgen : ∀ (L : List Nat) (acc : KernelState × Nat),
      ((L.foldl (fun acc featureid =>
        if new.getD featureid 0 ≠ old.getD featureid 0 then
          (move_feature_to_kind env acc.1 featureid (new.getD featureid 0),
           acc.2 + 1)
        else acc) acc).1).kinds.length = acc.1.kinds.length := by
    intro L
    induction L with
    | nil => intro acc; rfl
    | cons i t ih =>
      intro acc
      rw [List.foldl_cons]
      by_cases hg : new.getD i 0 ≠ old.getD i 0
      · rw [if_pos hg,
          ih (move_feature_to_kind env acc.1 i (new.getD i 0), acc.2 + 1)]
        exact move_kinds_length env acc.1 i (new.getD i 0)
      · rw [if_neg hg]
        exact ih acc
  exact hgen _ _

/-- C4.  `try_run` returns true exactly when some feature's proposed kind
differs from its previous one; `change_count_` counts those features
exactly, each of which is handled by exactly one `move_feature_to_kind` call
(the apply loop is the fold of moves over the duplicate-free list of
differing feature ids), and `total_count_` is the total number of
features. -/
theorem try_run_change (env : Env) (s : KernelState) (new : List Nat)
    (r : Nat)
    (hinfer : env.infer_assignments s s.featureid_to_kindid s.rng =
      (new, r)) :
    ((try_run env s).1 = true ↔
      ∃ i, i < s.featureid_to_kindid.length ∧
        new.getD i 0 ≠ s.featureid_to_kindid.getD i 0) ∧
    (try_run env s).2.change_count =
      (diffIndices s.featureid_to_kindid new).length ∧
    (try_run env s).2.total_count = s.featureid_to_kindid.length ∧
    (applyMovesCount env s.featureid_to_kindid new { s with rng := r }).1 =
      (diffIndices s.featureid_to_kindid new).foldl
        (fun t i => move_feature_to_kind env t i (new.getD i 0))
        { s with rng := r } ∧
    (diffIndices s.featureid_to_kindid new).Nodup := by
  have htr := try_run_eq env s new r hinfer
  have hsnd2 : (applyMovesCount env s.featureid_to_kindid new
      { s with rng := r }).2 =
      (diffIndices s.featureid_to_kindid new).length := by
    rw [applyMovesCount_eq_foldl,
      foldl_moves_snd env s.featureid_to_kindid new
        (List.range s.featureid_to_kindid.length) { s with rng := r } 0,
      Nat.zero_add]
    rfl
  refine ⟨?_, ?_, ?_, ?_, ?_⟩
  · rw [htr, try_run_apply_fst, hsnd2]
    rw [show (diffIndices s.featureid_to_kindid new).length =
        (List.range s.featureid_to_kindid.length).countP
          (fun i => decide (new.getD i 0 ≠ s.featureid_to_kindid.getD i 0))
      from (List.countP_eq_length_filter _ _).symm]
    simp [List.countP_pos_iff, List.mem_range]
  · rw [htr, try_run_apply_snd]
    show (init_featureless_kinds env _ env.empty_kind_count).change_count = _
    rw [(init_counters env _ env.empty_kind_count).2.1]
    exact hsnd2
  · rw [htr, try_run_apply_snd]
    show (init_featureless_kinds env _ env.empty_kind_count).total_count = _
    rw [(init_counters env _ env.empty_kind_count).1]
  · rw [applyMovesCount_eq_foldl]
    exact foldl_moves_fst env s.featureid_to_kindid new
      (List.range s.featureid_to_kindid.length) { s with rng := r } 0
  · exact List.Nodup.filter _ (List.nodup_range _)

theorem count_eq_countP_range (st : List Nat) (v : Nat) :
    st.count v = (List.range st.length).countP (fun j => st.getD j 0 == v) := by
  induction st with
  | nil => rfl
  | cons x t ih =>
    rw [List.length_cons, List.range_succ_eq_map, List.countP_cons,
      List.countP_map]
    have hcomp : (List.range t.length).countP
        ((fun j => (x :: t).getD j 0 == v) ∘ Nat.succ) =
        (List.range t.length).countP (fun j => t.getD j 0 == v) := rfl
    rw [hcomp, ← ih, List.count_cons]
    by_cases hxv : x = v
    · simp [hxv]
    · simp [hxv, Ne.symm hxv]

theorem death_birth_count (old new : List Nat) (K : Nat)
    (hold : ∀ k ∈ old, k < K) (hnew : ∀ k ∈ new, k < K) :
    (markStates (markStates (List.replicate K 0) old 1) new 2).count 1 =
      (old.toFinset \ new.toFinset).card ∧
    (markStates (markStates (List.replicate K 0) old 1) new 2).count 2 =
      (new.toFinset \ old.toFinset).card := by
  have hlen : (markStates (markStates (List.replicate K 0) old 1)
      new 2).length = K := by
    rw [markStates_length, markStates_length, List.length_replicate]
  constructor
  · rw [count_eq_countP_range, hlen]
    have hcongr : ∀ j ∈ List.range K,
        ((markStates (markStates (List.replicate K 0) old 1) new 2).getD j 0
          == 1) = true ↔
        (decide (j ∈ old ∧ j ∉ new)) = true := by
      intro j hj
      rw [kindStates_getD old new K j (List.mem_range.mp hj)]
      by_cases ho : j ∈ old <;> by_cases hn : j ∈ new <;> simp [ho, hn]
    rw [List.countP_congr hcongr]
    rw [show (List.range K).countP (fun j => decide (j ∈ old ∧ j ∉ new)) =
        ((Finset.range K).filter (fun j => j ∈ old ∧ j ∉ new)).card from by
      rw [List.countP_eq_length_filter]; rfl]
    congr 1
    ext j
    simp only [Finset.mem_filter, Finset.mem_range, Finset.mem_sdiff,
      List.mem_toFinset]
    exact ⟨fun h => h.2, fun h => ⟨hold j h.1, h⟩⟩
  · rw [count_eq_countP_range, hlen]
    have hcongr : ∀ j ∈ List.range K,
        ((markStates (markStates (List.replicate K 0) old 1) new 2).getD j 0
          == 2) = true ↔
        (decide (j ∈ new ∧ j ∉ old)) = true := by
      intro j hj
      rw [kindStates_getD old new K j (List.mem_range.mp hj)]
      by_cases ho : j ∈ old <;> by_cases hn : j ∈ new <;> simp [ho, hn]
    rw [List.countP_congr hcongr]
    rw [show (List.range K).countP (fun j => decide (j ∈ new ∧ j ∉ old)) =
        ((Finset.range K).filter (fun j => j ∈ new ∧ j ∉ old)).card from by
      rw [List.countP_eq_length_filter]; rfl]
    congr 1
    ext j
    simp only [Finset.mem_filter, Finset.mem_range, Finset.mem_sdiff,
      List.mem_toFinset]
    exact ⟨fun h => h.2, fun h => ⟨hnew j h.1, h⟩⟩

/-- C5.  After `try_run`, `death_count_` is the number of kind indices
occupied under the old map but not the new one, and `birth_count_` the
number occupied under the new map but not the old one, provided the maps
only mention valid kind indices (the source indexes `kind_states` with
them). -/
theorem try_run_birth_death (env : Env) (s : KernelState) (new : List Nat)
    (r : Nat)
    (hinfer : env.infer_assignments s s.featureid_to_kindid s.rng =
      (new, r))
    (hold : ∀ k ∈ s.featureid_to_kindid, k < s.kinds.length)
    (hnew : ∀ k ∈ new, k < s.kinds.length) :
    (try_run env s).2.death_count =
      (s.featureid_to_kindid.toFinset \ new.toFinset).card ∧
    (try_run env s).2.birth_count =
      (new.toFinset \ s.featureid_to_kindid.toFinset).card := by
  have htr := try_run_eq env s new r hinfer
  have hK := applyMovesCount_kinds_length env s.featureid_to_kindid new
    { s with rng := r }
  have hdb := death_birth_count s.featureid_to_kindid new s.kinds.length
    hold hnew
  constructor
  · rw [htr, try_run_apply_snd]
    show (init_featureless_kinds env _ env.empty_kind_count).death_count = _
    rw [(init_counters env _ env.empty_kind_count).2.2.2]
    show (markStates (markStates
      (List.replicate (applyMovesCount env s.featureid_to_kindid new
        { s with rng := r }).1.kinds.length 0)
      s.featureid_to_kindid 1) new 2).count 1 = _
    rw [hK]
    exact hdb.1
  · rw [htr, try_run_apply_snd]
    show (init_featureless_kinds env _ env.empty_kind_count).birth_count = _
    rw [(init_counters env _ env.empty_kind_count).2.2.1]
    show (markStates (markStates
      (List.replicate (applyMovesCount env s.featureid_to_kindid new
        { s with rng := r }).1.kinds.length 0)
      s.featureid_to_kindid 1) new 2).count 2 = _
    rw [hK]
    exact hdb.2

/-- A proposer that moves feature 2 to kind 1. -/
def testEnvMove : Env :=
  { testEnv with infer_assignments := fun _ m r => (m.set 2 1, r) }

/-- The fixture state after kernel construction: one occupied kind plus two
reservoir kinds. -/
def testStateInit : KernelState :=
  (kindKernelInit testEnv testState).getD testState

/-- Witness for C4: moving feature 2 of `testStateInit` into empty kind 1. -/
theorem try_run_change_witness :
    ((try_run testEnvMove testStateInit).1 = true ↔
      ∃ i, i < testStateInit.featureid_to_kindid.length ∧
        (testStateInit.featureid_to_kindid.set 2 1).getD i 0 ≠
          testStateInit.featureid_to_kindid.getD i 0) ∧
    (try_run testEnvMove testStateInit).2.change_count =
      (diffIndices testStateInit.featureid_to_kindid
        (testStateInit.featureid_to_kindid.set 2 1)).length ∧
    (try_run testEnvMove testStateInit).2.total_count =
      testStateInit.featureid_to_kindid.length ∧
    (applyMovesCount testEnvMove testStateInit.featureid_to_kindid
        (testStateInit.featureid_to_kindid.set 2 1)
        { testStateInit with rng := testStateInit.rng }).1 =
      (diffIndices testStateInit.featureid_to_kindid
        (testStateInit.featureid_to_kindid.set 2 1)).foldl
        (fun t i => move_feature_to_kind testEnvMove t i
          ((testStateInit.featureid_to_kindid.set 2 1).getD i 0))
        { testStateInit with rng := testStateInit.rng } ∧
    (diffIndices testStateInit.featureid_to_kindid
      (testStateInit.featureid_to_kindid.set 2 1)).Nodup :=
  try_run_change testEnvMove testStateInit
    (testStateInit.featureid_to_kindid.set 2 1) testStateInit.rng rfl

/-- Two kinds: kind 0 owns feature 0, kind 1 is empty — the synthetic
birth/death scenario where kind 0 loses its only feature to the empty
kind 1. -/
def testState5 : KernelState where
  kinds := [⟨3, [1], {0}⟩, ⟨4, [1], ∅⟩]
  featureid_to_kindid := [0]
  assignments := [[0], [0]]
  row_count := 1
  rng := 0
  total_count := 0
  change_count := 0
  birth_count := 0
  death_count := 0

/-- A proposer that moves feature 0 to kind 1. -/
def testEnvMove5 : Env :=
  { testEnv with infer_assignments := fun _ m r => (m.set 0 1, r) }

/-- Witness for C5: kind 0 dies and kind 1 is born, so
`death_count = birth_count = 1`. -/
theorem try_run_birth_death_witness :
    ((try_run testEnvMove5 testState5).2.death_count =
      (testState5.featureid_to_kindid.toFinset \
        (testState5.featureid_to_kindid.set 0 1).toFinset).card ∧
     (try_run testEnvMove5 testState5).2.birth_count =
      ((testState5.featureid_to_kindid.set 0 1).toFinset \
        testState5.featureid_to_kindid.toFinset).card) ∧
    (try_run testEnvMove5 testState5).2.death_count = 1 ∧
    (try_run testEnvMove5 testState5).2.birth_count = 1 :=
  ⟨try_run_birth_death testEnvMove5 testState5
    (testState5.featureid_to_kindid.set 0 1) testState5.rng rfl
    (by decide) (by decide), by decide, by decide⟩

end Loom
